import Mathlib

/-!
Verification development for the year-binning aggregation utilities of the
`roman_amphorae` repository (`src/utils.py`).

The pandas dataframe is shallowly embedded: a `Frame` is a list of column
names plus a list of rows, each row being a list of `Cell`s, positionally
aligned with the column names.  Float values of the source become exact
rationals; a float `NaN` coming from a missing value is `Cell.null`, and a
non-finite value produced by division (`inf` or `NaN` from `x / 0`) is
`Cell.fault`.  The site-list column holds `Cell.strList`.

Fallible pandas operations (KeyError on a missing column, ValueError from
`int(nan)` / `astype(int)` on a non-convertible column, TypeError from
flattening a non-list, KeyError on a missing dict key) are modelled with
`Option` / `Except`: any raised exception becomes `none` / `.error`.

Python `int()` and numpy `astype(int)` truncate toward zero; this is
`pyTrunc` below, which agrees with `Int.floor` on non-negative arguments
but not on negative fractional ones.
-/

set_option linter.unusedVariables false

/-- A dataframe cell: an exact numeric value, a missing value (float `NaN`),
a non-finite fault value produced by arithmetic (`inf` or `NaN` from a
division), or a list of site-identifier strings. -/
inductive Cell where
  | num (q : ℚ)
  | null
  | fault
  | strList (l : List String)
deriving DecidableEq, Repr

/-- One dataframe row: its cells, positionally aligned with the frame's
column names. -/
abbrev Row := List Cell

/-- A pandas dataframe: named columns over a list of rows. -/
structure Frame where
  colNames : List String
  rows : List Row
deriving DecidableEq, Repr

/-- A pandas Series as produced by `create_series`: ordered year-indexed
entries plus the series name and the index label. -/
structure Series where
  entries : List (Int × Cell)
  name : String
  indexName : String
deriving DecidableEq, Repr

/-- Errors surfaced by the dataframe operations; `missingColumn` is the
KeyError pandas raises when a named column does not exist
(the spec's `MissingColumnError`). -/
inductive DfError where
  | missingColumn
deriving DecidableEq, Repr

/-- Index of the first occurrence of a name in a name list. -/
def idxOf? : List String → String → Option Nat
  | [], _ => none
  | s :: l, c => if s = c then some 0 else (idxOf? l c).map (fun j => j + 1)

/-- Index of a named column (`data[c]` lookup); `none` models the KeyError. -/
def Frame.colIdx? (t : Frame) (c : String) : Option Nat :=
  idxOf? t.colNames c

/-- The cells of column `i`, one per row. -/
def Frame.colCells (t : Frame) (i : Nat) : List Cell :=
  t.rows.map (fun r => r.getD i Cell.null)

/-- Whether a cell is a missing value (float `NaN`), as tested by `dropna`. -/
def cellIsNull : Cell → Bool
  | Cell.null => true
  | _ => false

/-- The numeric values among a list of cells (pandas `min`/`max` skip `NaN`). -/
def cellNums : List Cell → List ℚ
  | [] => []
  | Cell.num q :: cs => q :: cellNums cs
  | _ :: cs => cellNums cs

/-- `Series.min()` followed by `int(...)`-convertibility: the minimum of the
numeric values of a column, `none` when there is none (then the pandas min is
`NaN` and `int(NaN)` raises).  Faithful for columns of numbers and missing
values, the data model of the date columns. -/
def minNum? (cs : List Cell) : Option ℚ :=
  match cellNums cs with
  | [] => none
  | q :: qs => some (qs.foldl min q)

/-- `Series.max()`, analogously to `minNum?`. -/
def maxNum? (cs : List Cell) : Option ℚ :=
  match cellNums cs with
  | [] => none
  | q :: qs => some (qs.foldl max q)

/-- Python `int()` / numpy `astype(int)` on a float: truncation toward zero.
Note that this is `Int.floor` for `0 ≤ q` but not for negative fractional
values: `pyTrunc (-3/2) = -1` while `⌊-3/2⌋ = -2`. -/
def pyTrunc (q : ℚ) : Int :=
  if 0 ≤ q then ⌊q⌋ else -⌊-q⌋

/-- `int(cell)` conversion: succeeds exactly on numeric cells; on `NaN`,
`inf` or a list the conversion raises (`none`). -/
def cellToInt? : Cell → Option Int
  | Cell.num q => some (pyTrunc q)
  | _ => none

/-- Python `range(a, b)` over integers, as an ascending list. -/
def intRange (a b : Int) : List Int :=
  (List.range (b - a).toNat).map (fun (k : Nat) => a + (k : Int))

/-- `data.dropna(subset=[c])` where `c` is the column with index `i`:
keeps the rows whose cell in that column is not a missing value.
(`dropna` returns a new frame; the input is untouched.) -/
def dropnaCol (t : Frame) (i : Nat) : Frame :=
  { t with rows := t.rows.filter (fun r => !cellIsNull (r.getD i Cell.null)) }

/-- Float addition on cells: `NaN` absorbs, then non-finite values absorb,
otherwise exact rational addition.  (A list operand would raise in pandas;
that case cannot arise in the developments below, which only add numeric
columns.) -/
def cellAdd : Cell → Cell → Cell
  | Cell.num a, Cell.num b => Cell.num (a + b)
  | Cell.null, _ => Cell.null
  | _, Cell.null => Cell.null
  | _, _ => Cell.fault

/-- Float subtraction on cells, with the same conventions as `cellAdd`. -/
def cellSub : Cell → Cell → Cell
  | Cell.num a, Cell.num b => Cell.num (a - b)
  | Cell.null, _ => Cell.null
  | _, Cell.null => Cell.null
  | _, _ => Cell.fault

/-- Float division on cells: division by an exact zero produces a non-finite
value (`inf` or `NaN`), modelled by `Cell.fault`; `NaN` operands propagate. -/
def cellDiv : Cell → Cell → Cell
  | Cell.null, _ => Cell.null
  | _, Cell.null => Cell.null
  | Cell.num a, Cell.num b => if b = 0 then Cell.fault else Cell.num (a / b)
  | _, _ => Cell.fault

/-- Column assignment `data[c] = vals`: if the column exists its cells are
replaced in place, otherwise a new column is appended on the right. -/
def setCol (t : Frame) (c : String) (vals : List Cell) : Frame :=
  match t.colIdx? c with
  | some j => { t with rows := t.rows.zipWith (fun r v => r.set j v) vals }
  | none =>
      { colNames := t.colNames ++ [c],
        rows := t.rows.zipWith (fun r v => r ++ [v]) vals }

/-- Embedding of `create_series(data, name, index_name)`: wraps the ordered
year-to-value entries into a named, index-labelled series.  (The source's
`data.reset_index()` call discards its result and has no effect.) -/
def create_series (data : List (Int × Cell)) (name : String) (index_name : String) : Series :=
  { entries := data, name := name, indexName := index_name }

/-- Embedding of `dens_per_year(data, type_dens, lower_date, upper_date,
output_column)` (the `output_column` default in the source is
`"density_per_year"`): computes `data[type_dens] / (data[upper_date] -
data[lower_date])` row-wise and assigns it to `output_column`, in place, on
the input frame, returning that same frame.  A missing input column is the
pandas KeyError, `DfError.missingColumn`. -/
def dens_per_year (data : Frame) (type_dens lower_date upper_date output_column : String) :
    Except DfError Frame :=
  match data.colIdx? type_dens, data.colIdx? upper_date, data.colIdx? lower_date with
  | some di, some ui, some li =>
      Except.ok (setCol data output_column
        (data.rows.map (fun r =>
          cellDiv (r.getD di Cell.null) (cellSub (r.getD ui Cell.null) (r.getD li Cell.null)))))
  | _, _, _ => Except.error DfError.missingColumn

/-- Key lookup in the year-bin dict (first binding wins; the dicts built
below always have distinct keys). -/
def dictLookup : List (Int × Cell) → Int → Option Cell
  | [], _ => none
  | (k, c) :: d, y => if y = k then some c else dictLookup d y

/-- One `date_dict[year] += v` step: fails (KeyError) when `year` is not a
key; otherwise rewrites the binding of that key. -/
def dictAdd (d : List (Int × Cell)) (y : Int) (v : Cell) : Option (List (Int × Cell)) :=
  if (dictLookup d y).isSome then
    some (d.map (fun p => (p.1, if p.1 = y then cellAdd p.2 v else p.2)))
  else
    none

/-- The inner loop body of `year_freq_series` for one row of the filtered
frame: convert the row's two dates with `int()` (raising on a non-numeric
cell), then add the row's rate value to every year of the half-open Python
range.  The rate column is only looked up when an addition actually happens,
as in the source, where `df[dens_per_year].iloc[row]` sits inside the inner
loop. -/
def freqRow (li ui : Nat) (di? : Option Nat) (d : List (Int × Cell)) (r : Row) :
    Option (List (Int × Cell)) := do
  let lo ← cellToInt? (r.getD li Cell.null)
  let hi ← cellToInt? (r.getD ui Cell.null)
  (intRange lo hi).foldlM (fun acc y => do
    let di ← di?
    dictAdd acc y (r.getD di Cell.null)) d

/-- The body of `year_freq_series` up to (not including) `create_series`:
resolve the year span over the full table, initialize the bin dict to zero,
drop the rows with a missing date, then run the accumulation loop. -/
def freqDict (t : Frame) (lower_date upper_date dens_col : String) :
    Option (List (Int × Cell)) := do
  let li ← t.colIdx? lower_date
  let ui ← t.colIdx? upper_date
  let m ← minNum? (t.colCells li)
  let mx ← maxNum? (t.colCells ui)
  let d0 := (intRange (pyTrunc m) (pyTrunc mx)).map (fun y => (y, Cell.num 0))
  let df := dropnaCol (dropnaCol t li) ui
  df.rows.foldlM (freqRow li ui (t.colIdx? dens_col)) d0

/-- Embedding of `year_freq_series(data, lower_date, upper_date,
dens_per_year, name, index_name)` (source defaults: `name="Frequency"`,
`index_name="Year"`).  The returned pair holds the state of `data` after the
call (the function never writes to it) and the produced series; `none`
models any raised exception. -/
def year_freq_series (data : Frame) (lower_date upper_date dens_col name index_name : String) :
    Option (Frame × Series) :=
  (freqDict data lower_date upper_date dens_col).map
    (fun d => (data, create_series d name index_name))

/-- One row of the row scan of `year_site_count_series` for a fixed year:
convert the dates with `int()`, and when the inclusive-inclusive test
`lo <= year <= hi` holds append the row's site-list cell to the collected
list (looking up the site column only then, as in the source). -/
def siteRowCollect (li ui : Nat) (si? : Option Nat) (y : Int) (acc : List Cell) (r : Row) :
    Option (List Cell) := do
  let lo ← cellToInt? (r.getD li Cell.null)
  let hi ← cellToInt? (r.getD ui Cell.null)
  if lo ≤ y ∧ y ≤ hi then do
    let si ← si?
    pure (acc ++ [r.getD si Cell.null])
  else
    pure acc

/-- The flattening list comprehension of `year_site_count_series`: fails
(TypeError) when some collected cell is not a list of strings. -/
def flattenCells? : List Cell → Option (List String)
  | [] => some []
  | Cell.strList l :: cs => (flattenCells? cs).map (fun rest => l ++ rest)
  | _ :: cs => none

/-- The per-year body of `year_site_count_series`: collect the site-list
cells of the matching rows; when none matched the bin keeps its initial 0
(the `continue` branch), otherwise the value is the number of distinct
site identifiers in the flattened collection (`len(set(flat_list))`). -/
def siteValue? (rows : List Row) (li ui : Nat) (si? : Option Nat) (y : Int) : Option Cell := do
  let cells ← rows.foldlM (siteRowCollect li ui si? y) []
  if cells.length = 0 then
    pure (Cell.num 0)
  else do
    let flat ← flattenCells? cells
    pure (Cell.num (flat.dedup.length))

/-- The body of `year_site_count_series` up to `create_series`: resolve the
span over the full table, drop rows with a missing date, then compute each
year bin of the dict in key order. -/
def siteDict (t : Frame) (lower_date upper_date site_list : String) :
    Option (List (Int × Cell)) := do
  let li ← t.colIdx? lower_date
  let ui ← t.colIdx? upper_date
  let m ← minNum? (t.colCells li)
  let mx ← maxNum? (t.colCells ui)
  let df := dropnaCol (dropnaCol t li) ui
  (intRange (pyTrunc m) (pyTrunc mx)).mapM
    (fun y => (siteValue? df.rows li ui (t.colIdx? site_list) y).map (fun v => (y, v)))

/-- Embedding of `year_site_count_series(data, lower_date, upper_date,
site_list, name, index_name)` (source defaults: `name="Site count"`,
`index_name="Year"`), with the same output conventions as
`year_freq_series`. -/
def year_site_count_series (data : Frame) (lower_date upper_date site_list name index_name : String) :
    Option (Frame × Series) :=
  (siteDict data lower_date upper_date site_list).map
    (fun d => (data, create_series d name index_name))

/-- The per-year body of `year_type_count_series`: count the rows whose
dates pass the inclusive-inclusive test. -/
def typeValue? (rows : List Row) (li ui : Nat) (y : Int) : Option Cell := do
  let n ← rows.foldlM (fun (c : Nat) r => do
      let lo ← cellToInt? (r.getD li Cell.null)
      let hi ← cellToInt? (r.getD ui Cell.null)
      pure (if lo ≤ y ∧ y ≤ hi then c + 1 else c)) 0
  pure (Cell.num (n : ℚ))

/-- The body of `year_type_count_series` up to `create_series`. -/
def typeDict (t : Frame) (lower_date upper_date : String) : Option (List (Int × Cell)) := do
  let li ← t.colIdx? lower_date
  let ui ← t.colIdx? upper_date
  let m ← minNum? (t.colCells li)
  let mx ← maxNum? (t.colCells ui)
  let df := dropnaCol (dropnaCol t li) ui
  (intRange (pyTrunc m) (pyTrunc mx)).mapM
    (fun y => (typeValue? df.rows li ui y).map (fun v => (y, v)))

/-- Embedding of `year_type_count_series(data, lower_date, upper_date, name,
index_name)` (source defaults: `name="Site count"`, `index_name="Year"`),
with the same output conventions as `year_freq_series`. -/
def year_type_count_series (data : Frame) (lower_date upper_date name index_name : String) :
    Option (Frame × Series) :=
  (typeDict data lower_date upper_date).map
    (fun d => (data, create_series d name index_name))

/-- The value of an aggregator's output series at year `y`, when the call
succeeded and the year is on the index. -/
def valueAt? (o : Option (Frame × Series)) (y : Int) : Option Cell :=
  o.bind (fun p => dictLookup p.2.entries y)

/-- The year index of an aggregator's output series, when the call
succeeded. -/
def seriesIndex? (o : Option (Frame × Series)) : Option (List Int) :=
  o.map (fun p => p.2.entries.map Prod.fst)

/-- The successfully returned frame of a fallible frame computation. -/
def okFrame? : Except DfError Frame → Option Frame
  | Except.ok t => some t
  | Except.error _ => none

/-- The cell of row `k` in the column named `c`. -/
def cellOf? (t : Frame) (c : String) (k : Nat) : Option Cell :=
  (t.colIdx? c).map (fun j => (t.rows.getD k []).getD j Cell.null)

/-- A whole named column. -/
def Frame.column? (t : Frame) (c : String) : Option (List Cell) :=
  (t.colIdx? c).map (fun j => t.colCells j)

/-- Well-formedness of the rectangular shape: every row has exactly one
cell per column, as a pandas dataframe does. -/
def rowsRectB (t : Frame) : Bool :=
  t.rows.all (fun r => r.length = t.colNames.length)

/-- Whether a row has non-null values in both date columns (the rows kept by
the two `dropna` calls of every aggregator). -/
def rowValidB (r : Row) (li ui : Nat) : Bool :=
  !cellIsNull (r.getD li Cell.null) && !cellIsNull (r.getD ui Cell.null)

/-- Code-faithful half-open interval test: `int(lower) <= y < int(upper)`
with the truncation-toward-zero conversion actually performed by the
source's `astype(int)`; false when either date does not convert. -/
def truncOpenTestB (r : Row) (li ui : Nat) (y : Int) : Bool :=
  match cellToInt? (r.getD li Cell.null), cellToInt? (r.getD ui Cell.null) with
  | some lo, some hi => decide (lo ≤ y ∧ y < hi)
  | _, _ => false

/-- Code-faithful inclusive-inclusive interval test:
`int(lower) <= y <= int(upper)` with truncation toward zero. -/
def truncInclTestB (r : Row) (li ui : Nat) (y : Int) : Bool :=
  match cellToInt? (r.getD li Cell.null), cellToInt? (r.getD ui Cell.null) with
  | some lo, some hi => decide (lo ≤ y ∧ y ≤ hi)
  | _, _ => false

/-- The half-open interval test exactly as the claims state it:
`floor(lower) <= y < floor(upper)`. -/
def floorOpenTestB (r : Row) (li ui : Nat) (y : Int) : Bool :=
  match r.getD li Cell.null, r.getD ui Cell.null with
  | Cell.num a, Cell.num b => decide (⌊a⌋ ≤ y ∧ y < ⌊b⌋)
  | _, _ => false

/-- The inclusive-inclusive interval test exactly as the claims state it:
`floor(lower) <= y <= floor(upper)`. -/
def floorInclTestB (r : Row) (li ui : Nat) (y : Int) : Bool :=
  match r.getD li Cell.null, r.getD ui Cell.null with
  | Cell.num a, Cell.num b => decide (⌊a⌋ ≤ y ∧ y ≤ ⌊b⌋)
  | _, _ => false

/-- The site identifiers carried by a site-list cell. -/
def sitesOf : Cell → List String
  | Cell.strList l => l
  | _ => []

/-- Specification-side summed rate at year `y`, parameterized by the
interval test: the sum, over the rows with non-null lower and upper dates
that pass the test, of the rate column's value, rows failing the test
contributing nothing. -/
def specRateSum (test : Row → Nat → Nat → Int → Bool) (t : Frame) (li ui di : Nat)
    (y : Int) : Cell :=
  (t.rows.filter (fun r => rowValidB r li ui && test r li ui y)).foldl
    (fun c r => cellAdd c (r.getD di Cell.null)) (Cell.num 0)

/-- Specification-side distinct-site count at year `y`, parameterized by
the interval test: flatten the site lists of the matching valid rows,
deduplicate, count. -/
def specSiteCount (test : Row → Nat → Nat → Int → Bool) (t : Frame) (li ui si : Nat)
    (y : Int) : Nat :=
  (((t.rows.filter (fun r => rowValidB r li ui && test r li ui y)).map
      (fun r => sitesOf (r.getD si Cell.null))).flatten).dedup.length

/-- Specification-side type count at year `y`, parameterized by the
interval test: the raw number of matching valid rows. -/
def specTypeCount (test : Row → Nat → Nat → Int → Bool) (t : Frame) (li ui : Nat)
    (y : Int) : Nat :=
  (t.rows.filter (fun r => rowValidB r li ui && test r li ui y)).length

theorem mem_intRange (a b z : Int) : z ∈ intRange a b ↔ a ≤ z ∧ z < b := by
  unfold intRange
  simp only [List.mem_map, List.mem_range]
  constructor
  · rintro ⟨k, hk, rfl⟩
    omega
  · rintro ⟨h1, h2⟩
    exact ⟨(z - a).toNat, by omega, by omega⟩

theorem nodup_intRange (a b : Int) : (intRange a b).Nodup := by
  unfold intRange
  refine (List.nodup_range _).map ?_
  intro x y h
  have h2 : a + (x : Int) = a + (y : Int) := h
  omega

theorem length_intRange (a b : Int) : (intRange a b).length = (b - a).toNat := by
  unfold intRange
  simp

theorem pyTrunc_mono {a b : ℚ} (h : a ≤ b) : pyTrunc a ≤ pyTrunc b := by
  unfold pyTrunc
  by_cases ha : 0 ≤ a
  · rw [if_pos ha, if_pos (le_trans ha h)]
    exact Int.floor_le_floor h
  · rw [if_neg ha]
    by_cases hb : 0 ≤ b
    · rw [if_pos hb]
      have h1 : (0 : Int) ≤ ⌊b⌋ := Int.floor_nonneg.mpr hb
      have h2 : (0 : Int) ≤ ⌊-a⌋ := Int.floor_nonneg.mpr (by linarith [lt_of_not_le ha])
      omega
    · rw [if_neg hb]
      have h1 : ⌊-b⌋ ≤ ⌊-a⌋ := Int.floor_le_floor (by linarith)
      omega

theorem foldl_min_le_init (qs : List ℚ) : ∀ a : ℚ, qs.foldl min a ≤ a := by
  induction qs with
  | nil => intro a; simp
  | cons q qs ih =>
      intro a
      calc (q :: qs).foldl min a = qs.foldl min (min a q) := by simp
        _ ≤ min a q := ih _
        _ ≤ a := min_le_left _ _

theorem foldl_min_le_mem (qs : List ℚ) : ∀ (a q : ℚ), q ∈ qs → qs.foldl min a ≤ q := by
  induction qs with
  | nil => intro a q hq; cases hq
  | cons p qs ih =>
      intro a q hq
      rcases List.mem_cons.mp hq with h | h
      · subst h
        calc (q :: qs).foldl min a = qs.foldl min (min a q) := by simp
          _ ≤ min a q := foldl_min_le_init _ _
          _ ≤ q := min_le_right _ _
      · simpa using ih (min a p) q h

theorem foldl_max_ge_init (qs : List ℚ) : ∀ a : ℚ, a ≤ qs.foldl max a := by
  induction qs with
  | nil => intro a; simp
  | cons q qs ih =>
      intro a
      calc a ≤ max a q := le_max_left _ _
        _ ≤ qs.foldl max (max a q) := ih _
        _ = (q :: qs).foldl max a := by simp

theorem foldl_max_ge_mem (qs : List ℚ) : ∀ (a q : ℚ), q ∈ qs → q ≤ qs.foldl max a := by
  induction qs with
  | nil => intro a q hq; cases hq
  | cons p qs ih =>
      intro a q hq
      rcases List.mem_cons.mp hq with h | h
      · subst h
        calc q ≤ max a q := le_max_right _ _
          _ ≤ qs.foldl max (max a q) := foldl_max_ge_init _ _
          _ = (q :: qs).foldl max a := by simp
      · simpa using ih (max a p) q h

theorem minNum?_le {cs : List Cell} {m q : ℚ} (hm : minNum? cs = some m)
    (hq : q ∈ cellNums cs) : m ≤ q := by
  unfold minNum? at hm
  rcases h : cellNums cs with _ | ⟨p, ps⟩
  · rw [h] at hq; cases hq
  · rw [h] at hm hq
    have hm2 : m = ps.foldl min p := by
      simpa using hm.symm
    subst hm2
    rcases List.mem_cons.mp hq with h1 | h1
    · subst h1; exact foldl_min_le_init _ _
    · exact foldl_min_le_mem _ _ _ h1

theorem le_maxNum? {cs : List Cell} {m q : ℚ} (hm : maxNum? cs = some m)
    (hq : q ∈ cellNums cs) : q ≤ m := by
  unfold maxNum? at hm
  rcases h : cellNums cs with _ | ⟨p, ps⟩
  · rw [h] at hq; cases hq
  · rw [h] at hm hq
    have hm2 : m = ps.foldl max p := by
      simpa using hm.symm
    subst hm2
    rcases List.mem_cons.mp hq with h1 | h1
    · subst h1; exact foldl_max_ge_init _ _
    · exact foldl_max_ge_mem _ _ _ h1

theorem mem_cellNums {cs : List Cell} {q : ℚ} (h : Cell.num q ∈ cs) : q ∈ cellNums cs := by
  induction cs with
  | nil => cases h
  | cons c cs ih =>
      rcases List.mem_cons.mp h with h1 | h1
      · subst h1; simp [cellNums]
      · cases c with
        | num p => exact List.mem_cons.mpr (Or.inr (ih h1))
        | null => exact ih h1
        | fault => exact ih h1
        | strList l => exact ih h1

theorem mapfst_keyfix (d : List (Int × Cell)) (y : Int) (g : Cell → Cell) :
    (d.map (fun p => (p.1, if p.1 = y then g p.2 else p.2))).map Prod.fst = d.map Prod.fst := by
  simp [List.map_map, Function.comp]

theorem dictLookup_keyfix (d : List (Int × Cell)) (y z : Int) (g : Cell → Cell) :
    dictLookup (d.map (fun p => (p.1, if p.1 = y then g p.2 else p.2))) z
      = (dictLookup d z).map (fun c => if z = y then g c else c) := by
  induction d with
  | nil => simp [dictLookup]
  | cons p d ih =>
      rcases p with ⟨k, c⟩
      by_cases hzk : z = k
      · subst hzk
        simp [dictLookup]
      · simp [dictLookup, hzk, ih]

theorem dictAdd_char {d d' : List (Int × Cell)} {y : Int} {v : Cell}
    (h : dictAdd d y v = some d') :
    d'.map Prod.fst = d.map Prod.fst ∧
    ∀ z, dictLookup d' z = (dictLookup d z).map (fun c => if z = y then cellAdd c v else c) := by
  unfold dictAdd at h
  by_cases hs : (dictLookup d y).isSome
  · rw [if_pos hs] at h
    have hd : d' = d.map (fun p => (p.1, if p.1 = y then cellAdd p.2 v else p.2)) :=
      (Option.some.injEq _ _ ▸ h).symm
    subst hd
    exact ⟨mapfst_keyfix d y (fun c => cellAdd c v),
      fun z => dictLookup_keyfix d y z (fun c => cellAdd c v)⟩
  · rw [if_neg hs] at h
    cases h

theorem foldDict_char (v : Cell) :
    ∀ (ys : List Int), ys.Nodup → ∀ (d d' : List (Int × Cell)),
      ys.foldlM (fun acc y => dictAdd acc y v) d = some d' →
      d'.map Prod.fst = d.map Prod.fst ∧
      ∀ z, dictLookup d' z = (dictLookup d z).map (fun c => if z ∈ ys then cellAdd c v else c) := by
  intro ys
  induction ys with
  | nil =>
      intro _ d d' h
      simp only [List.foldlM_nil] at h
      cases h
      simp
  | cons y ys ih =>
      intro hnd d d' h
      rw [List.foldlM_cons] at h
      rcases Option.bind_eq_some.mp h with ⟨d1, h1, h2⟩
      obtain ⟨hk1, hl1⟩ := dictAdd_char h1
      obtain ⟨hk2, hl2⟩ := ih (List.nodup_cons.mp hnd).2 d1 d' h2
      refine ⟨hk2.trans hk1, ?_⟩
      intro z
      rw [hl2 z, hl1 z, Option.map_map]
      apply congrArg (fun f => Option.map f (dictLookup d z))
      funext c
      by_cases hzy : z = y
      · subst hzy
        have hzys : z ∉ ys := (List.nodup_cons.mp hnd).1
        simp [hzys]
      · by_cases hzm : z ∈ ys <;> simp [hzy, hzm]

theorem dictLookup_isSome_iff {d : List (Int × Cell)} {y : Int} :
    (dictLookup d y).isSome = true ↔ y ∈ d.map Prod.fst := by
  induction d with
  | nil => simp [dictLookup]
  | cons p d ih =>
      rcases p with ⟨k, c⟩
      by_cases hk : y = k
      · subst hk; simp [dictLookup]
      · simp only [dictLookup, if_neg hk]
        simp [hk, ih]

theorem foldDict_success (v : Cell) :
    ∀ (ys : List Int) (d : List (Int × Cell)),
      (∀ y ∈ ys, y ∈ d.map Prod.fst) →
      ∃ d', ys.foldlM (fun acc y => dictAdd acc y v) d = some d' := by
  intro ys
  induction ys with
  | nil => intro d _; exact ⟨d, rfl⟩
  | cons y ys ih =>
      intro d hmem
      have h1 : dictAdd d y v =
          some (d.map (fun p => (p.1, if p.1 = y then cellAdd p.2 v else p.2))) := by
        unfold dictAdd
        rw [if_pos (dictLookup_isSome_iff.mpr (hmem y (List.mem_cons_self y ys)))]
      obtain ⟨hk1, _⟩ := dictAdd_char h1
      obtain ⟨d', hd'⟩ := ih _ (fun z hz => hk1 ▸ hmem z (List.mem_cons_of_mem y hz))
      refine ⟨d', ?_⟩
      rw [List.foldlM_cons, h1]
      exact hd'

theorem freqRow_some_di (li ui di : Nat) (d : List (Int × Cell)) (r : Row) :
    freqRow li ui (some di) d r = (do
      let lo ← cellToInt? (r.getD li Cell.null)
      let hi ← cellToInt? (r.getD ui Cell.null)
      (intRange lo hi).foldlM (fun acc y => dictAdd acc y (r.getD di Cell.null)) d) := rfl

theorem freqFold_char (li ui di : Nat) :
    ∀ (rows : List Row) (d d' : List (Int × Cell)),
      rows.foldlM (freqRow li ui (some di)) d = some d' →
      d'.map Prod.fst = d.map Prod.fst ∧
      ∀ z, dictLookup d' z = (dictLookup d z).map
        (fun c => rows.foldl
          (fun c2 r => if truncOpenTestB r li ui z then cellAdd c2 (r.getD di Cell.null) else c2) c) := by
  intro rows
  induction rows with
  | nil =>
      intro d d' h
      simp only [List.foldlM_nil] at h
      cases h
      simp
  | cons r rows ih =>
      intro d d' h
      rw [List.foldlM_cons] at h
      rcases Option.bind_eq_some.mp h with ⟨d1, h1, h2⟩
      rw [freqRow_some_di] at h1
      rcases hlo : cellToInt? (r.getD li Cell.null) with _ | lo
      · rw [hlo] at h1; exact Option.noConfusion h1
      rcases hhi : cellToInt? (r.getD ui Cell.null) with _ | hi
      · rw [hlo, hhi] at h1; exact Option.noConfusion h1
      rw [hlo, hhi] at h1
      have h1b : (intRange lo hi).foldlM
          (fun acc y => dictAdd acc y (r.getD di Cell.null)) d = some d1 := h1
      obtain ⟨hk1, hl1⟩ := foldDict_char _ _ (nodup_intRange lo hi) _ _ h1b
      obtain ⟨hk2, hl2⟩ := ih d1 d' h2
      refine ⟨hk2.trans hk1, ?_⟩
      intro z
      rw [hl2 z, hl1 z, Option.map_map]
      apply congrArg (fun f => Option.map f (dictLookup d z))
      funext c
      simp only [Function.comp, List.foldl_cons]
      apply congrArg (fun c0 => List.foldl _ c0 rows)
      have htest : truncOpenTestB r li ui z = decide (lo ≤ z ∧ z < hi) := by
        unfold truncOpenTestB
        rw [hlo, hhi]
      rw [htest]
      by_cases hcond : lo ≤ z ∧ z < hi <;> simp [hcond, mem_intRange]

theorem freqFold_success (li ui di : Nat) :
    ∀ (rows : List Row) (d : List (Int × Cell)),
      (∀ r ∈ rows, ∃ lo hi, cellToInt? (r.getD li Cell.null) = some lo ∧
        cellToInt? (r.getD ui Cell.null) = some hi ∧
        ∀ y : Int, lo ≤ y → y < hi → y ∈ d.map Prod.fst) →
      ∃ d', rows.foldlM (freqRow li ui (some di)) d = some d' := by
  intro rows
  induction rows with
  | nil => intro d _; exact ⟨d, rfl⟩
  | cons r rows ih =>
      intro d hmem
      obtain ⟨lo, hi, hlo, hhi, hsub⟩ := hmem r (List.mem_cons_self r rows)
      obtain ⟨d1, hd1⟩ := foldDict_success (r.getD di Cell.null) (intRange lo hi) d
        (fun y hy => by
          rw [mem_intRange] at hy
          exact hsub y hy.1 hy.2)
      have h1 : freqRow li ui (some di) d r = some d1 := by
        rw [freqRow_some_di, hlo, hhi]
        simpa using hd1
      obtain ⟨hk1, _⟩ := foldDict_char _ _ (nodup_intRange lo hi) _ _ hd1
      obtain ⟨d', hd'⟩ := ih d1 (fun r2 hr2 => by
        obtain ⟨lo2, hi2, hlo2, hhi2, hsub2⟩ := hmem r2 (List.mem_cons_of_mem r hr2)
        exact ⟨lo2, hi2, hlo2, hhi2, fun y hy1 hy2 => hk1 ▸ hsub2 y hy1 hy2⟩)
      refine ⟨d', ?_⟩
      rw [List.foldlM_cons, h1]
      exact hd'

theorem foldl_filter_if (p : Row → Bool) (f : Cell → Row → Cell) :
    ∀ (l : List Row) (b : Cell),
      (l.filter p).foldl f b = l.foldl (fun c r => if p r then f c r else c) b := by
  intro l
  induction l with
  | nil => intro b; simp
  | cons r l ih =>
      intro b
      by_cases h : p r <;> simp [List.filter_cons, h, ih]

theorem foldl_congr_mem (f g : Cell → Row → Cell) :
    ∀ (l : List Row) (b : Cell), (∀ c r, r ∈ l → f c r = g c r) →
      l.foldl f b = l.foldl g b := by
  intro l
  induction l with
  | nil => intro b _; rfl
  | cons r l ih =>
      intro b h
      simp only [List.foldl_cons]
      rw [h b r (List.mem_cons_self r l)]
      exact ih _ (fun c r2 hr2 => h c r2 (List.mem_cons_of_mem r hr2))

theorem dictLookup_mem_nodup {d : List (Int × Cell)} {y : Int} {v : Cell}
    (hnd : (d.map Prod.fst).Nodup) (h : (y, v) ∈ d) : dictLookup d y = some v := by
  induction d with
  | nil => cases h
  | cons p d ih =>
      rcases p with ⟨k, c⟩
      rcases List.mem_cons.mp h with h1 | h1
      · rw [Prod.mk.injEq] at h1
        rcases h1 with ⟨h1a, h1b⟩
        subst h1a; subst h1b
        simp [dictLookup]
      · have hnd2 : (k :: d.map Prod.fst).Nodup := by simpa using hnd
        have hk : ¬y = k := by
          intro he
          subst he
          exact (List.nodup_cons.mp hnd2).1 (List.mem_map.mpr ⟨(y, v), h1, rfl⟩)
        simp only [dictLookup, if_neg hk]
        exact ih (List.nodup_cons.mp hnd2).2 h1

theorem dictLookup_const {ks : List Int} {y : Int} (c0 : Cell) (h : y ∈ ks) :
    dictLookup (ks.map (fun k => (k, c0))) y = some c0 := by
  induction ks with
  | nil => cases h
  | cons k ks ih =>
      rcases List.mem_cons.mp h with h1 | h1
      · subst h1; simp [dictLookup]
      · by_cases hk : y = k
        · subst hk; simp [dictLookup]
        · simp only [List.map_cons, dictLookup, if_neg hk]
          exact ih h1

theorem if_nest_eq (p1 p2 t3 : Bool) (c a : Cell) :
    (if p1 then (if p2 then (if t3 then a else c) else c) else c)
      = (if (p1 && p2) && t3 then a else c) := by
  cases p1 <;> cases p2 <;> cases t3 <;> simp

theorem freqDict_char {t : Frame} {lower upper dens : String} {li ui di : Nat}
    {d : List (Int × Cell)}
    (hli : t.colIdx? lower = some li) (hui : t.colIdx? upper = some ui)
    (hdi : t.colIdx? dens = some di)
    (hd : freqDict t lower upper dens = some d) :
    (∃ m mx, minNum? (t.colCells li) = some m ∧ maxNum? (t.colCells ui) = some mx ∧
        d.map Prod.fst = intRange (pyTrunc m) (pyTrunc mx)) ∧
    ∀ (y : Int) (v : Cell), (y, v) ∈ d → v = specRateSum truncOpenTestB t li ui di y := by
  unfold freqDict at hd
  rw [hli, hui, hdi] at hd
  have hdA : (do
      let m ← minNum? (t.colCells li)
      let mx ← maxNum? (t.colCells ui)
      ((dropnaCol (dropnaCol t li) ui).rows).foldlM (freqRow li ui (some di))
        ((intRange (pyTrunc m) (pyTrunc mx)).map (fun y => (y, Cell.num 0)))) = some d := hd
  clear hd
  rcases hm : minNum? (t.colCells li) with _ | m
  · rw [hm] at hdA; exact Option.noConfusion hdA
  rcases hmx : maxNum? (t.colCells ui) with _ | mx
  · rw [hm, hmx] at hdA; exact Option.noConfusion hdA
  rw [hm, hmx] at hdA
  have hd2 : ((dropnaCol (dropnaCol t li) ui).rows).foldlM (freqRow li ui (some di))
      ((intRange (pyTrunc m) (pyTrunc mx)).map (fun y => (y, Cell.num 0))) = some d := hdA
  obtain ⟨hk, hl⟩ := freqFold_char li ui di _ _ _ hd2
  have hkeys : d.map Prod.fst = intRange (pyTrunc m) (pyTrunc mx) := by
    rw [hk, List.map_map]
    exact List.map_id _
  refine ⟨⟨m, mx, rfl, rfl, hkeys⟩, ?_⟩
  intro y v hmem
  have hynd : (d.map Prod.fst).Nodup := by
    rw [hkeys]; exact nodup_intRange _ _
  have hlook : dictLookup d y = some v := dictLookup_mem_nodup hynd hmem
  have hy : y ∈ intRange (pyTrunc m) (pyTrunc mx) := by
    rw [← hkeys]
    exact List.mem_map.mpr ⟨(y, v), hmem, rfl⟩
  have h0 : dictLookup ((intRange (pyTrunc m) (pyTrunc mx)).map (fun k => (k, Cell.num 0))) y
      = some (Cell.num 0) := dictLookup_const _ hy
  rw [hl y, h0] at hlook
  have hv : v = ((dropnaCol (dropnaCol t li) ui).rows).foldl
      (fun c2 r => if truncOpenTestB r li ui y then cellAdd c2 (r.getD di Cell.null) else c2)
      (Cell.num 0) := by
    have := Option.some.injEq _ _ ▸ hlook
    simpa using this.symm
  rw [hv]
  have hcode : ((dropnaCol (dropnaCol t li) ui).rows).foldl
      (fun c2 r => if truncOpenTestB r li ui y then cellAdd c2 (r.getD di Cell.null) else c2)
      (Cell.num 0)
      = t.rows.foldl (fun c r =>
          if !cellIsNull (r.getD li Cell.null) then
            (if !cellIsNull (r.getD ui Cell.null) then
              (if truncOpenTestB r li ui y then cellAdd c (r.getD di Cell.null) else c)
            else c)
          else c) (Cell.num 0) := by
    show ((t.rows.filter (fun r => !cellIsNull (r.getD li Cell.null))).filter
        (fun r => !cellIsNull (r.getD ui Cell.null))).foldl _ _ = _
    rw [foldl_filter_if, foldl_filter_if]
  have hspec : specRateSum truncOpenTestB t li ui di y =
      t.rows.foldl (fun c r =>
        if rowValidB r li ui && truncOpenTestB r li ui y
        then cellAdd c (r.getD di Cell.null) else c) (Cell.num 0) := by
    unfold specRateSum
    rw [foldl_filter_if]
  rw [hcode, hspec]
  apply foldl_congr_mem
  intro c r _
  simp only [rowValidB]
  exact if_nest_eq _ _ _ _ _

theorem filter_filter_and (p q : Row → Bool) :
    ∀ (l : List Row), (l.filter p).filter q = l.filter (fun r => p r && q r) := by
  intro l
  induction l with
  | nil => simp
  | cons r l ih =>
      by_cases hp : p r <;> by_cases hq : q r <;>
        simp [List.filter_cons, hp, hq, ih]

theorem filter_ext (p q : Row → Bool) (h : ∀ r, p r = q r) :
    ∀ (l : List Row), l.filter p = l.filter q := by
  intro l
  induction l with
  | nil => simp
  | cons r l ih =>
      rw [List.filter_cons, List.filter_cons, h r, ih]

theorem siteRowCollect_some_si (li ui si : Nat) (y : Int) (acc : List Cell) (r : Row) :
    siteRowCollect li ui (some si) y acc r = (do
      let lo ← cellToInt? (r.getD li Cell.null)
      let hi ← cellToInt? (r.getD ui Cell.null)
      if lo ≤ y ∧ y ≤ hi then some (acc ++ [r.getD si Cell.null]) else some acc) := rfl

theorem siteCollect_char (li ui si : Nat) (y : Int) :
    ∀ (rows : List Row) (acc out : List Cell),
      rows.foldlM (siteRowCollect li ui (some si) y) acc = some out →
      out = acc ++ (rows.filter (fun r => truncInclTestB r li ui y)).map
        (fun r => r.getD si Cell.null) := by
  intro rows
  induction rows with
  | nil =>
      intro acc out h
      simp only [List.foldlM_nil] at h
      cases h
      simp
  | cons r rows ih =>
      intro acc out h
      rw [List.foldlM_cons] at h
      rcases Option.bind_eq_some.mp h with ⟨acc1, h1, h2⟩
      rw [siteRowCollect_some_si] at h1
      rcases hlo : cellToInt? (r.getD li Cell.null) with _ | lo
      · rw [hlo] at h1; exact Option.noConfusion h1
      rcases hhi : cellToInt? (r.getD ui Cell.null) with _ | hi
      · rw [hlo, hhi] at h1; exact Option.noConfusion h1
      rw [hlo, hhi] at h1
      have htest : truncInclTestB r li ui y = decide (lo ≤ y ∧ y ≤ hi) := by
        unfold truncInclTestB
        rw [hlo, hhi]
      have h1b : (if lo ≤ y ∧ y ≤ hi then some (acc ++ [r.getD si Cell.null])
          else some acc) = some acc1 := h1
      by_cases hcond : lo ≤ y ∧ y ≤ hi
      · rw [if_pos hcond] at h1b
        have hacc1 : acc1 = acc ++ [r.getD si Cell.null] :=
          (Option.some.inj h1b).symm
        subst hacc1
        rw [ih _ _ h2]
        rw [List.filter_cons]
        rw [htest]
        simp [hcond]
      · rw [if_neg hcond] at h1b
        have hacc1 : acc1 = acc := (Option.some.inj h1b).symm
        subst hacc1
        rw [ih _ _ h2]
        rw [List.filter_cons, htest]
        simp [hcond]

theorem flattenCells?_char :
    ∀ (cells : List Cell) (flat : List String),
      flattenCells? cells = some flat → flat = (cells.map sitesOf).flatten := by
  intro cells
  induction cells with
  | nil =>
      intro flat h
      cases h
      simp
  | cons c cells ih =>
      intro flat h
      cases c with
      | strList l =>
          rcases Option.map_eq_some'.mp h with ⟨rest, hrest, hflat⟩
          rw [← hflat, ih rest hrest]
          simp [sitesOf]
      | num q => exact Option.noConfusion h
      | null => exact Option.noConfusion h
      | fault => exact Option.noConfusion h

theorem siteValue?_char (li ui si : Nat) (y : Int) {rows : List Row} {v : Cell}
    (h : siteValue? rows li ui (some si) y = some v) :
    v = Cell.num ((((rows.filter (fun r => truncInclTestB r li ui y)).map
        (fun r => sitesOf (r.getD si Cell.null))).flatten).dedup.length) := by
  unfold siteValue? at h
  rcases hc : rows.foldlM (siteRowCollect li ui (some si) y) [] with _ | cells
  · rw [hc] at h; exact Option.noConfusion h
  rw [hc] at h
  have hcells : cells = (rows.filter (fun r => truncInclTestB r li ui y)).map
      (fun r => r.getD si Cell.null) := by
    have := siteCollect_char li ui si y rows [] cells hc
    simpa using this
  have hmm : ((rows.filter (fun r => truncInclTestB r li ui y)).map
      (fun r => sitesOf (r.getD si Cell.null))) = cells.map sitesOf := by
    rw [hcells, List.map_map]
    rfl
  by_cases hlen : cells.length = 0
  · have h2 : some (Cell.num 0) = some v := by
      have hbody : (if cells.length = 0 then some (Cell.num 0)
          else (do
            let flat ← flattenCells? cells
            pure (Cell.num (flat.dedup.length)))) = some v := h
      rw [if_pos hlen] at hbody
      exact hbody
    have hnil : cells = [] := List.length_eq_zero.mp hlen
    rw [hmm, hnil]
    simp
    exact (Option.some.inj h2).symm
  · have hbody : (if cells.length = 0 then some (Cell.num 0)
        else (do
          let flat ← flattenCells? cells
          pure (Cell.num (flat.dedup.length)))) = some v := h
    rw [if_neg hlen] at hbody
    rcases hfl : flattenCells? cells with _ | flat
    · rw [hfl] at hbody; exact Option.noConfusion hbody
    rw [hfl] at hbody
    have hv : v = Cell.num (flat.dedup.length) :=
      (Option.some.injEq _ _ ▸ hbody).symm
    rw [hv, hmm, ← flattenCells?_char cells flat hfl]

theorem typeFold_char (li ui : Nat) (y : Int) :
    ∀ (rows : List Row) (n0 n : Nat),
      rows.foldlM (fun (c : Nat) r => do
        let lo ← cellToInt? (r.getD li Cell.null)
        let hi ← cellToInt? (r.getD ui Cell.null)
        pure (if lo ≤ y ∧ y ≤ hi then c + 1 else c)) n0 = some n →
      n = n0 + (rows.filter (fun r => truncInclTestB r li ui y)).length := by
  intro rows
  induction rows with
  | nil =>
      intro n0 n h
      simp only [List.foldlM_nil] at h
      cases h
      simp
  | cons r rows ih =>
      intro n0 n h
      rw [List.foldlM_cons] at h
      rcases Option.bind_eq_some.mp h with ⟨n1, h1, h2⟩
      rcases hlo : cellToInt? (r.getD li Cell.null) with _ | lo
      · rw [hlo] at h1; exact Option.noConfusion h1
      rcases hhi : cellToInt? (r.getD ui Cell.null) with _ | hi
      · rw [hlo, hhi] at h1; exact Option.noConfusion h1
      rw [hlo, hhi] at h1
      have h1b : some (if lo ≤ y ∧ y ≤ hi then n0 + 1 else n0) = some n1 := h1
      have hn1 : n1 = if lo ≤ y ∧ y ≤ hi then n0 + 1 else n0 :=
        (Option.some.inj h1b).symm
      have htest : truncInclTestB r li ui y = decide (lo ≤ y ∧ y ≤ hi) := by
        unfold truncInclTestB
        rw [hlo, hhi]
      rw [ih _ _ h2, hn1, List.filter_cons, htest]
      by_cases hcond : lo ≤ y ∧ y ≤ hi <;> (simp [hcond]; try omega)

theorem typeValue?_char (li ui : Nat) (y : Int) {rows : List Row} {v : Cell}
    (h : typeValue? rows li ui y = some v) :
    v = Cell.num (((rows.filter (fun r => truncInclTestB r li ui y)).length : ℚ)) := by
  unfold typeValue? at h
  rcases hn : rows.foldlM (fun (c : Nat) r => do
      let lo ← cellToInt? (r.getD li Cell.null)
      let hi ← cellToInt? (r.getD ui Cell.null)
      pure (if lo ≤ y ∧ y ≤ hi then c + 1 else c)) 0 with _ | n
  · rw [hn] at h; exact Option.noConfusion h
  rw [hn] at h
  have hv : v = Cell.num ((n : ℚ)) := (Option.some.inj h).symm
  have hcount := typeFold_char li ui y rows 0 n hn
  rw [hv, hcount]
  simp

theorem mapM_entries_char {f : Int → Option (Int × Cell)}
    (hf : ∀ y p, f y = some p → p.1 = y) :
    ∀ (ks : List Int) (es : List (Int × Cell)), ks.mapM f = some es →
      es.map Prod.fst = ks ∧ ∀ y v, (y, v) ∈ es → f y = some (y, v) := by
  intro ks
  induction ks with
  | nil =>
      intro es h
      simp only [List.mapM_nil] at h
      cases h
      exact ⟨rfl, fun y v hmem => absurd hmem (List.not_mem_nil _)⟩
  | cons k ks ih =>
      intro es h
      rw [List.mapM_cons] at h
      rcases Option.bind_eq_some.mp h with ⟨p, hp, h2⟩
      rcases Option.bind_eq_some.mp h2 with ⟨es2, hes2, h3⟩
      have hes : es = p :: es2 := (Option.some.inj h3).symm
      subst hes
      obtain ⟨hk2, hmem2⟩ := ih es2 hes2
      have hpk : p.1 = k := hf k p hp
      constructor
      · simp [hpk, hk2]
      · intro y v hmem
        rcases List.mem_cons.mp hmem with h1 | h1
        · have hyk : y = k := by
            rw [← hpk, ← h1]
          subst hyk
          rw [hp, ← h1]
        · exact hmem2 y v h1

theorem siteDict_char {t : Frame} {lower upper site : String} {li ui si : Nat}
    {d : List (Int × Cell)}
    (hli : t.colIdx? lower = some li) (hui : t.colIdx? upper = some ui)
    (hsi : t.colIdx? site = some si)
    (hd : siteDict t lower upper site = some d) :
    (∃ m mx, minNum? (t.colCells li) = some m ∧ maxNum? (t.colCells ui) = some mx ∧
        d.map Prod.fst = intRange (pyTrunc m) (pyTrunc mx)) ∧
    ∀ (y : Int) (v : Cell), (y, v) ∈ d →
      v = Cell.num (specSiteCount truncInclTestB t li ui si y) := by
  unfold siteDict at hd
  rw [hli, hui, hsi] at hd
  have hdA : (do
      let m ← minNum? (t.colCells li)
      let mx ← maxNum? (t.colCells ui)
      (intRange (pyTrunc m) (pyTrunc mx)).mapM
        (fun y => (siteValue? (dropnaCol (dropnaCol t li) ui).rows li ui (some si) y).map
          (fun v => (y, v)))) = some d := hd
  clear hd
  rcases hm : minNum? (t.colCells li) with _ | m
  · rw [hm] at hdA; exact Option.noConfusion hdA
  rcases hmx : maxNum? (t.colCells ui) with _ | mx
  · rw [hm, hmx] at hdA; exact Option.noConfusion hdA
  rw [hm, hmx] at hdA
  have hd2 : (intRange (pyTrunc m) (pyTrunc mx)).mapM
      (fun y => (siteValue? (dropnaCol (dropnaCol t li) ui).rows li ui (some si) y).map
        (fun v => (y, v))) = some d := hdA
  have hf : ∀ (y : Int) (p : Int × Cell),
      (siteValue? (dropnaCol (dropnaCol t li) ui).rows li ui (some si) y).map
        (fun v => (y, v)) = some p → p.1 = y := by
    intro y p hp
    rcases Option.map_eq_some'.mp hp with ⟨a, _, hpa⟩
    rw [← hpa]
  obtain ⟨hkeys, hmem⟩ := mapM_entries_char hf _ d hd2
  refine ⟨⟨m, mx, rfl, rfl, hkeys⟩, ?_⟩
  intro y v hmem2
  have hfy := hmem y v hmem2
  rcases Option.map_eq_some'.mp hfy with ⟨a, ha, hpa⟩
  have hav : a = v := by
    have := congrArg Prod.snd hpa
    simpa using this
  subst hav
  have hv := siteValue?_char li ui si y ha
  have hfilter : ((dropnaCol (dropnaCol t li) ui).rows).filter
      (fun r => truncInclTestB r li ui y)
      = t.rows.filter (fun r => rowValidB r li ui && truncInclTestB r li ui y) := by
    show ((t.rows.filter (fun r => !cellIsNull (r.getD li Cell.null))).filter
        (fun r => !cellIsNull (r.getD ui Cell.null))).filter _ = _
    rw [filter_filter_and, filter_filter_and]
    exact filter_ext _ _ (fun r => by simp [rowValidB, Bool.and_assoc]) _
  rw [hv]
  unfold specSiteCount
  rw [← hfilter]

theorem typeDict_char {t : Frame} {lower upper : String} {li ui : Nat}
    {d : List (Int × Cell)}
    (hli : t.colIdx? lower = some li) (hui : t.colIdx? upper = some ui)
    (hd : typeDict t lower upper = some d) :
    (∃ m mx, minNum? (t.colCells li) = some m ∧ maxNum? (t.colCells ui) = some mx ∧
        d.map Prod.fst = intRange (pyTrunc m) (pyTrunc mx)) ∧
    ∀ (y : Int) (v : Cell), (y, v) ∈ d →
      v = Cell.num ((specTypeCount truncInclTestB t li ui y : ℚ)) := by
  unfold typeDict at hd
  rw [hli, hui] at hd
  have hdA : (do
      let m ← minNum? (t.colCells li)
      let mx ← maxNum? (t.colCells ui)
      (intRange (pyTrunc m) (pyTrunc mx)).mapM
        (fun y => (typeValue? (dropnaCol (dropnaCol t li) ui).rows li ui y).map
          (fun v => (y, v)))) = some d := hd
  clear hd
  rcases hm : minNum? (t.colCells li) with _ | m
  · rw [hm] at hdA; exact Option.noConfusion hdA
  rcases hmx : maxNum? (t.colCells ui) with _ | mx
  · rw [hm, hmx] at hdA; exact Option.noConfusion hdA
  rw [hm, hmx] at hdA
  have hd2 : (intRange (pyTrunc m) (pyTrunc mx)).mapM
      (fun y => (typeValue? (dropnaCol (dropnaCol t li) ui).rows li ui y).map
        (fun v => (y, v))) = some d := hdA
  have hf : ∀ (y : Int) (p : Int × Cell),
      (typeValue? (dropnaCol (dropnaCol t li) ui).rows li ui y).map
        (fun v => (y, v)) = some p → p.1 = y := by
    intro y p hp
    rcases Option.map_eq_some'.mp hp with ⟨a, _, hpa⟩
    rw [← hpa]
  obtain ⟨hkeys, hmem⟩ := mapM_entries_char hf _ d hd2
  refine ⟨⟨m, mx, rfl, rfl, hkeys⟩, ?_⟩
  intro y v hmem2
  have hfy := hmem y v hmem2
  rcases Option.map_eq_some'.mp hfy with ⟨a, ha, hpa⟩
  have hav : a = v := by
    have := congrArg Prod.snd hpa
    simpa using this
  subst hav
  have hv := typeValue?_char li ui y ha
  have hfilter : ((dropnaCol (dropnaCol t li) ui).rows).filter
      (fun r => truncInclTestB r li ui y)
      = t.rows.filter (fun r => rowValidB r li ui && truncInclTestB r li ui y) := by
    show ((t.rows.filter (fun r => !cellIsNull (r.getD li Cell.null))).filter
        (fun r => !cellIsNull (r.getD ui Cell.null))).filter _ = _
    rw [filter_filter_and, filter_filter_and]
    exact filter_ext _ _ (fun r => by simp [rowValidB, Bool.and_assoc]) _
  rw [hv]
  unfold specTypeCount
  rw [← hfilter]

theorem year_freq_series_char {t : Frame} {lower upper dens name index_name : String}
    {li ui di : Nat} {p : Frame × Series}
    (hli : t.colIdx? lower = some li) (hui : t.colIdx? upper = some ui)
    (hdi : t.colIdx? dens = some di)
    (h : year_freq_series t lower upper dens name index_name = some p) :
    p.1 = t ∧
    (∃ m mx, minNum? (t.colCells li) = some m ∧ maxNum? (t.colCells ui) = some mx ∧
        p.2.entries.map Prod.fst = intRange (pyTrunc m) (pyTrunc mx)) ∧
    ∀ (y : Int) (v : Cell), (y, v) ∈ p.2.entries →
      v = specRateSum truncOpenTestB t li ui di y := by
  unfold year_freq_series at h
  rcases Option.map_eq_some'.mp h with ⟨d, hd, hp⟩
  obtain ⟨hex, hval⟩ := freqDict_char hli hui hdi hd
  rw [← hp]
  exact ⟨rfl, hex, hval⟩

theorem year_site_count_series_char {t : Frame} {lower upper site name index_name : String}
    {li ui si : Nat} {p : Frame × Series}
    (hli : t.colIdx? lower = some li) (hui : t.colIdx? upper = some ui)
    (hsi : t.colIdx? site = some si)
    (h : year_site_count_series t lower upper site name index_name = some p) :
    p.1 = t ∧
    (∃ m mx, minNum? (t.colCells li) = some m ∧ maxNum? (t.colCells ui) = some mx ∧
        p.2.entries.map Prod.fst = intRange (pyTrunc m) (pyTrunc mx)) ∧
    ∀ (y : Int) (v : Cell), (y, v) ∈ p.2.entries →
      v = Cell.num (specSiteCount truncInclTestB t li ui si y) := by
  unfold year_site_count_series at h
  rcases Option.map_eq_some'.mp h with ⟨d, hd, hp⟩
  obtain ⟨hex, hval⟩ := siteDict_char hli hui hsi hd
  rw [← hp]
  exact ⟨rfl, hex, hval⟩

theorem year_type_count_series_char {t : Frame} {lower upper name index_name : String}
    {li ui : Nat} {p : Frame × Series}
    (hli : t.colIdx? lower = some li) (hui : t.colIdx? upper = some ui)
    (h : year_type_count_series t lower upper name index_name = some p) :
    p.1 = t ∧
    (∃ m mx, minNum? (t.colCells li) = some m ∧ maxNum? (t.colCells ui) = some mx ∧
        p.2.entries.map Prod.fst = intRange (pyTrunc m) (pyTrunc mx)) ∧
    ∀ (y : Int) (v : Cell), (y, v) ∈ p.2.entries →
      v = Cell.num ((specTypeCount truncInclTestB t li ui y : ℚ)) := by
  unfold year_type_count_series at h
  rcases Option.map_eq_some'.mp h with ⟨d, hd, hp⟩
  obtain ⟨hex, hval⟩ := typeDict_char hli hui hd
  rw [← hp]
  exact ⟨rfl, hex, hval⟩

/-- Well-formedness of a date column: every cell is a missing value or a
number, as in a float64 pandas column that was never touched by the
rate computation. -/
def numColB (t : Frame) (i : Nat) : Bool :=
  t.rows.all (fun r => cellIsNull (r.getD i Cell.null) || (cellToInt? (r.getD i Cell.null)).isSome)

theorem cellToInt?_eq_some {c : Cell} {n : Int} (h : cellToInt? c = some n) :
    ∃ q : ℚ, c = Cell.num q ∧ n = pyTrunc q := by
  cases c with
  | num q => exact ⟨q, rfl, (Option.some.inj h).symm⟩
  | null => exact Option.noConfusion h
  | fault => exact Option.noConfusion h
  | strList l => exact Option.noConfusion h

theorem keys_init (ks : List Int) :
    ((ks.map (fun y => (y, Cell.num 0))).map Prod.fst) = ks := by
  rw [List.map_map]
  exact List.map_id _

theorem mem_of_mem_dropna2 {t : Frame} {li ui : Nat} {r : Row}
    (h : r ∈ (dropnaCol (dropnaCol t li) ui).rows) :
    r ∈ t.rows ∧ cellIsNull (r.getD li Cell.null) = false ∧
      cellIsNull (r.getD ui Cell.null) = false := by
  have h1 := List.mem_filter.mp h
  have h2 := List.mem_filter.mp h1.1
  refine ⟨h2.1, ?_, ?_⟩
  · have := h2.2
    simpa using this
  · have := h1.2
    simpa using this

theorem dropna2_cell_num {t : Frame} {i : Nat} {r : Row}
    (hn : numColB t i = true)
    (hmem : r ∈ t.rows) (hnotnull : cellIsNull (r.getD i Cell.null) = false) :
    ∃ q : ℚ, r.getD i Cell.null = Cell.num q ∧
      cellToInt? (r.getD i Cell.null) = some (pyTrunc q) := by
  have hall := List.all_eq_true.mp hn r hmem
  rw [hnotnull] at hall
  simp only [Bool.false_or] at hall
  rcases ho : cellToInt? (r.getD i Cell.null) with _ | n
  · rw [ho] at hall; simp at hall
  · obtain ⟨q, hq, hnq⟩ := cellToInt?_eq_some ho
    exact ⟨q, hq, by rw [hnq]⟩

theorem colCell_mem_nums {t : Frame} {i : Nat} {r : Row} {q : ℚ}
    (hmem : r ∈ t.rows) (hq : r.getD i Cell.null = Cell.num q) :
    q ∈ cellNums (t.colCells i) := by
  apply mem_cellNums
  rw [← hq]
  exact List.mem_map.mpr ⟨r, hmem, rfl⟩

theorem year_freq_series_success {t : Frame} {lower upper dens name index_name : String}
    {li ui di : Nat} {m mx : ℚ}
    (hli : t.colIdx? lower = some li) (hui : t.colIdx? upper = some ui)
    (hdi : t.colIdx? dens = some di)
    (hnli : numColB t li = true) (hnui : numColB t ui = true)
    (hm : minNum? (t.colCells li) = some m) (hmx : maxNum? (t.colCells ui) = some mx) :
    (∀ r ∈ (dropnaCol (dropnaCol t li) ui).rows, ∀ z : Int,
        truncOpenTestB r li ui z = true → z ∈ intRange (pyTrunc m) (pyTrunc mx)) ∧
    ∃ p, year_freq_series t lower upper dens name index_name = some p := by
  have hrow : ∀ r ∈ (dropnaCol (dropnaCol t li) ui).rows, ∃ qlo qhi : ℚ,
      r.getD li Cell.null = Cell.num qlo ∧ r.getD ui Cell.null = Cell.num qhi ∧
      pyTrunc m ≤ pyTrunc qlo ∧ pyTrunc qhi ≤ pyTrunc mx := by
    intro r hr
    obtain ⟨hmem, hnl, hnu⟩ := mem_of_mem_dropna2 hr
    obtain ⟨qlo, hqlo, _⟩ := dropna2_cell_num hnli hmem hnl
    obtain ⟨qhi, hqhi, _⟩ := dropna2_cell_num hnui hmem hnu
    refine ⟨qlo, qhi, hqlo, hqhi, ?_, ?_⟩
    · exact pyTrunc_mono (minNum?_le hm (colCell_mem_nums hmem hqlo))
    · exact pyTrunc_mono (le_maxNum? hmx (colCell_mem_nums hmem hqhi))
  constructor
  · intro r hr z hz
    obtain ⟨qlo, qhi, hqlo, hqhi, hlo2, hhi2⟩ := hrow r hr
    have hz2 : pyTrunc qlo ≤ z ∧ z < pyTrunc qhi := by
      unfold truncOpenTestB at hz
      rw [hqlo, hqhi] at hz
      simpa [cellToInt?] using hz
    rw [mem_intRange]
    omega
  · obtain ⟨d', hd'⟩ := freqFold_success li ui di
      ((dropnaCol (dropnaCol t li) ui).rows)
      ((intRange (pyTrunc m) (pyTrunc mx)).map (fun y => (y, Cell.num 0)))
      (by
        intro r hr
        obtain ⟨qlo, qhi, hqlo, hqhi, hlo2, hhi2⟩ := hrow r hr
        refine ⟨pyTrunc qlo, pyTrunc qhi, by rw [hqlo]; rfl, by rw [hqhi]; rfl, ?_⟩
        intro z hz1 hz2
        rw [keys_init, mem_intRange]
        omega)
    refine ⟨(t, create_series d' name index_name), ?_⟩
    unfold year_freq_series freqDict
    rw [hli, hui, hdi]
    have hbody : (do
        let m2 ← minNum? (t.colCells li)
        let mx2 ← maxNum? (t.colCells ui)
        ((dropnaCol (dropnaCol t li) ui).rows).foldlM (freqRow li ui (some di))
          ((intRange (pyTrunc m2) (pyTrunc mx2)).map (fun y => (y, Cell.num 0)))) = some d' := by
      rw [hm, hmx]
      exact hd'
    show Option.map _ (do
        let m2 ← minNum? (t.colCells li)
        let mx2 ← maxNum? (t.colCells ui)
        ((dropnaCol (dropnaCol t li) ui).rows).foldlM (freqRow li ui (some di))
          ((intRange (pyTrunc m2) (pyTrunc mx2)).map (fun y => (y, Cell.num 0)))) = _
    rw [hbody]
    rfl

theorem idxOf?_spec : ∀ (l : List String) (c : String) (j : Nat),
    idxOf? l c = some j → j < l.length ∧ l[j]? = some c := by
  intro l
  induction l with
  | nil => intro c j h; exact Option.noConfusion h
  | cons s l ih =>
      intro c j h
      unfold idxOf? at h
      by_cases hs : s = c
      · rw [if_pos hs] at h
        have hj : j = 0 := (Option.some.inj h).symm
        subst hj
        subst hs
        exact ⟨Nat.succ_pos _, by simp⟩
      · rw [if_neg hs] at h
        rcases Option.map_eq_some'.mp h with ⟨j2, hj2, hjj⟩
        obtain ⟨hlt, hget⟩ := ih c j2 hj2
        subst hjj
        refine ⟨by simpa using Nat.succ_lt_succ hlt, ?_⟩
        simpa using hget

theorem idxOf?_append_one_none {l : List String} {c x : String}
    (h : idxOf? l c = none) :
    idxOf? (l ++ [x]) c = (if x = c then some l.length else none) := by
  induction l with
  | nil => simp [idxOf?]
  | cons s l ih =>
      unfold idxOf? at h
      by_cases hs : s = c
      · rw [if_pos hs] at h; exact Option.noConfusion h
      · rw [if_neg hs] at h
        have hl : idxOf? l c = none := by
          rcases ho : idxOf? l c with _ | j
          · rfl
          · rw [ho] at h; simp at h
        show (if s = c then some 0 else (idxOf? (l ++ [x]) c).map (fun j => j + 1)) = _
        rw [if_neg hs, ih hl]
        by_cases hx : x = c <;> simp [hx]

theorem idxOf?_append_one_some {l : List String} {c x : String} {j : Nat}
    (h : idxOf? l c = some j) :
    idxOf? (l ++ [x]) c = some j := by
  induction l generalizing j with
  | nil => exact Option.noConfusion h
  | cons s l ih =>
      unfold idxOf? at h
      by_cases hs : s = c
      · rw [if_pos hs] at h
        have hj : j = 0 := (Option.some.inj h).symm
        subst hj
        show (if s = c then some 0 else _) = some 0
        rw [if_pos hs]
      · rw [if_neg hs] at h
        rcases Option.map_eq_some'.mp h with ⟨j2, hj2, hjj⟩
        show (if s = c then some 0 else (idxOf? (l ++ [x]) c).map (fun j => j + 1)) = some j
        rw [if_neg hs, ih hj2, ← hjj]
        rfl

theorem getD_set_self : ∀ (r : Row) (j : Nat) (v d : Cell), j < r.length →
    (r.set j v).getD j d = v := by
  intro r
  induction r with
  | nil => intro j v d h; cases h
  | cons c r ih =>
      intro j v d h
      cases j with
      | zero => rfl
      | succ j2 => exact ih j2 v d (by simpa using h)

theorem getD_set_ne : ∀ (r : Row) (i j : Nat) (v d : Cell), j ≠ i →
    (r.set i v).getD j d = r.getD j d := by
  intro r
  induction r with
  | nil => intro i j v d h; rfl
  | cons c r ih =>
      intro i j v d h
      cases i with
      | zero =>
          cases j with
          | zero => exact absurd rfl h
          | succ j2 => rfl
      | succ i2 =>
          cases j with
          | zero => rfl
          | succ j2 => exact ih i2 j2 v d (fun he => h (by rw [he]))

theorem getD_append_left : ∀ (r s : Row) (j : Nat) (d : Cell), j < r.length →
    (r ++ s).getD j d = r.getD j d := by
  intro r
  induction r with
  | nil => intro s j d h; cases h
  | cons c r ih =>
      intro s j d h
      cases j with
      | zero => rfl
      | succ j2 => exact ih s j2 d (by simpa using h)

theorem getD_append_len : ∀ (r : Row) (v d : Cell), (r ++ [v]).getD r.length d = v := by
  intro r
  induction r with
  | nil => intro v d; rfl
  | cons c r ih => intro v d; exact ih v d

theorem zipWith_map_right_same (g : Row → Cell → Row) (f : Row → Cell) :
    ∀ (l : List Row), List.zipWith g l (l.map f) = l.map (fun r => g r (f r)) := by
  intro l
  induction l with
  | nil => rfl
  | cons r l ih => simp [ih]

theorem filter_eraseIdx_of_false (p : Row → Bool) :
    ∀ (l : List Row) (k : Nat) (r : Row), l[k]? = some r → p r = false →
      (l.eraseIdx k).filter p = l.filter p := by
  intro l
  induction l with
  | nil => intro k r h _; exact Option.noConfusion h
  | cons a l ih =>
      intro k r h hp
      cases k with
      | zero =>
          have ha : a = r := by simpa using h
          subst ha
          simp [List.eraseIdx, List.filter_cons, hp]
      | succ k2 =>
          have h2 : l[k2]? = some r := by simpa using h
          show (a :: l.eraseIdx k2).filter p = _
          rw [List.filter_cons, List.filter_cons, ih k2 r h2 hp]

/-- Removal of the row at position `k`, used to state that a row contributes
nothing: the aggregates of `t` are compared with those of `t.eraseRow k`. -/
def Frame.eraseRow (t : Frame) (k : Nat) : Frame :=
  { t with rows := t.rows.eraseIdx k }

theorem rowsGetD_of_getElem? {l : List Row} {k : Nat} {r : Row} (h : l[k]? = some r) :
    l.getD k [] = r := by
  simp [List.getD_eq_getElem?_getD, h]

theorem rect_row_len {t : Frame} {r : Row} (hrect : rowsRectB t = true)
    (hmem : r ∈ t.rows) : r.length = t.colNames.length := by
  have := List.all_eq_true.mp hrect r hmem
  simpa using this

theorem dens_per_year_ok {t : Frame} {td lo up : String} (out : String) {di ui li : Nat}
    (h1 : t.colIdx? td = some di) (h2 : t.colIdx? up = some ui)
    (h3 : t.colIdx? lo = some li) :
    dens_per_year t td lo up out = Except.ok (setCol t out
      (t.rows.map (fun r => cellDiv (r.getD di Cell.null)
        (cellSub (r.getD ui Cell.null) (r.getD li Cell.null))))) := by
  unfold dens_per_year
  rw [h1, h2, h3]

theorem setCol_char {t : Frame} (out : String) (f : Row → Cell)
    (hrect : rowsRectB t = true) :
    (setCol t out (t.rows.map f)).rows.length = t.rows.length ∧
    (∀ c, c ≠ out → (setCol t out (t.rows.map f)).column? c = t.column? c) ∧
    (setCol t out (t.rows.map f)).column? out = some (t.rows.map f) := by
  rcases hj : t.colIdx? out with _ | j
  · have hrows : (setCol t out (t.rows.map f)).rows = t.rows.map (fun r => r ++ [f r]) := by
      unfold setCol
      rw [hj]
      exact zipWith_map_right_same _ _ _
    have hnames : (setCol t out (t.rows.map f)).colNames = t.colNames ++ [out] := by
      unfold setCol
      rw [hj]
    have hidx : ∀ c, (setCol t out (t.rows.map f)).colIdx? c = idxOf? (t.colNames ++ [out]) c := by
      intro c
      unfold Frame.colIdx?
      rw [hnames]
    refine ⟨by rw [hrows]; simp, ?_, ?_⟩
    · intro c hc
      rcases hc2 : t.colIdx? c with _ | jc
      · have hc3 : idxOf? t.colNames c = none := hc2
        have hcol : (setCol t out (t.rows.map f)).colIdx? c = none := by
          rw [hidx c, idxOf?_append_one_none hc3, if_neg (fun he => hc he.symm)]
        unfold Frame.column?
        rw [hcol, hc2]
        rfl
      · have hc3 : idxOf? t.colNames c = some jc := hc2
        have hidx2 : (setCol t out (t.rows.map f)).colIdx? c = some jc := by
          rw [hidx c, idxOf?_append_one_some hc3]
        unfold Frame.column?
        rw [hidx2, hc2]
        simp only [Option.map_some']
        apply congrArg
        unfold Frame.colCells
        rw [hrows, List.map_map]
        apply List.map_congr_left
        intro r hr
        have hlen : r.length = t.colNames.length := rect_row_len hrect hr
        have hjc : jc < t.colNames.length := (idxOf?_spec _ _ _ hc3).1
        show (r ++ [f r]).getD jc Cell.null = r.getD jc Cell.null
        exact getD_append_left r [f r] jc Cell.null (by omega)
    · have hout : (setCol t out (t.rows.map f)).colIdx? out = some t.colNames.length := by
        rw [hidx out, idxOf?_append_one_none hj, if_pos rfl]
      unfold Frame.column?
      rw [hout]
      simp only [Option.map_some']
      apply congrArg
      unfold Frame.colCells
      rw [hrows, List.map_map]
      apply List.map_congr_left
      intro r hr
      have hlen : r.length = t.colNames.length := rect_row_len hrect hr
      show (r ++ [f r]).getD t.colNames.length Cell.null = f r
      rw [← hlen]
      exact getD_append_len r (f r) Cell.null
  · have hrows : (setCol t out (t.rows.map f)).rows = t.rows.map (fun r => r.set j (f r)) := by
      unfold setCol
      rw [hj]
      exact zipWith_map_right_same _ _ _
    have hnames : (setCol t out (t.rows.map f)).colNames = t.colNames := by
      unfold setCol
      rw [hj]
    have hidx : ∀ c, (setCol t out (t.rows.map f)).colIdx? c = t.colIdx? c := by
      intro c
      unfold Frame.colIdx?
      rw [hnames]
    refine ⟨by rw [hrows]; simp, ?_, ?_⟩
    · intro c hc
      unfold Frame.column?
      rw [hidx c]
      rcases hc2 : t.colIdx? c with _ | jc
      · rfl
      · simp only [Option.map_some']
        apply congrArg
        unfold Frame.colCells
        rw [hrows, List.map_map]
        apply List.map_congr_left
        intro r hr
        have hjne : jc ≠ j := by
          intro he
          subst he
          have hs1 := (idxOf?_spec _ _ _ (show idxOf? t.colNames c = some jc from hc2)).2
          have hs2 := (idxOf?_spec _ _ _ (show idxOf? t.colNames out = some jc from hj)).2
          rw [hs1] at hs2
          exact hc (Option.some.inj hs2)
        show (r.set j (f r)).getD jc Cell.null = r.getD jc Cell.null
        exact getD_set_ne r j jc (f r) Cell.null hjne
    · unfold Frame.column?
      rw [hidx out, hj]
      simp only [Option.map_some']
      apply congrArg
      unfold Frame.colCells
      rw [hrows, List.map_map]
      apply List.map_congr_left
      intro r hr
      have hlen : r.length = t.colNames.length := rect_row_len hrect hr
      have hjlt : j < t.colNames.length := (idxOf?_spec _ _ _ hj).1
      show (r.set j (f r)).getD j Cell.null = f r
      exact getD_set_self r j (f r) Cell.null (by omega)

theorem specRateSum_eraseRow (test : Row → Nat → Nat → Int → Bool) {t : Frame} {k : Nat}
    {r : Row} (li ui di : Nat)
    (hk : t.rows[k]? = some r) (hnull : rowValidB r li ui = false) (y : Int) :
    specRateSum test (t.eraseRow k) li ui di y = specRateSum test t li ui di y := by
  unfold specRateSum
  show ((t.rows.eraseIdx k).filter _).foldl _ _ = _
  rw [filter_eraseIdx_of_false _ _ k r hk (by rw [hnull]; rfl)]

theorem specSiteCount_eraseRow (test : Row → Nat → Nat → Int → Bool) {t : Frame} {k : Nat}
    {r : Row} (li ui si : Nat)
    (hk : t.rows[k]? = some r) (hnull : rowValidB r li ui = false) (y : Int) :
    specSiteCount test (t.eraseRow k) li ui si y = specSiteCount test t li ui si y := by
  unfold specSiteCount
  show ((((t.rows.eraseIdx k).filter _).map _).flatten).dedup.length = _
  rw [filter_eraseIdx_of_false _ _ k r hk (by rw [hnull]; rfl)]

theorem specTypeCount_eraseRow (test : Row → Nat → Nat → Int → Bool) {t : Frame} {k : Nat}
    {r : Row} (li ui : Nat)
    (hk : t.rows[k]? = some r) (hnull : rowValidB r li ui = false) (y : Int) :
    specTypeCount test (t.eraseRow k) li ui y = specTypeCount test t li ui y := by
  unfold specTypeCount
  show ((t.rows.eraseIdx k).filter _).length = _
  rw [filter_eraseIdx_of_false _ _ k r hk (by rw [hnull]; rfl)]

/-- Test frame for the summed-rate aggregator: a wide integer row (rate 0)
and a row with fractional negative lower date `-3/2` (rate 1). -/
def T1 : Frame :=
  ⟨["lo", "hi", "d"],
   [[Cell.num (-10), Cell.num 10, Cell.num 0],
    [Cell.num (-3/2), Cell.num 1, Cell.num 1]]⟩

/-- Test frame for the site-count aggregator, same date layout as `T1`. -/
def T2 : Frame :=
  ⟨["lo", "hi", "s"],
   [[Cell.num (-10), Cell.num 10, Cell.strList []],
    [Cell.num (-3/2), Cell.num (5/2), Cell.strList ["A"]]]⟩

/-- Test frame for the type-count aggregator, same date layout as `T1`. -/
def T3 : Frame :=
  ⟨["lo", "hi"],
   [[Cell.num (-10), Cell.num 10],
    [Cell.num (-3/2), Cell.num (5/2)]]⟩

/-- Single-row frame whose minimum lower date is fractional negative. -/
def T4a : Frame :=
  ⟨["lo", "hi", "d"], [[Cell.num (-3/2), Cell.num 2, Cell.num 0]]⟩

/-- Frame with only partial rows: row 0 has a lower date and a null upper
date, row 1 the other way around, with `min lower = 10 > 0 = max upper`. -/
def T4b : Frame :=
  ⟨["lo", "hi", "d"],
   [[Cell.num 10, Cell.null, Cell.num 1],
    [Cell.null, Cell.num 0, Cell.num 1]]⟩

/-- Witness frame for the year-range contract: the span endpoints come from
two partial rows (lower 5 with null upper; null lower with upper 9). -/
def TW4 : Frame :=
  ⟨["lo", "hi", "d", "s"],
   [[Cell.num 5, Cell.null, Cell.num 1, Cell.strList ["A"]],
    [Cell.null, Cell.num 9, Cell.num 1, Cell.strList []],
    [Cell.num 6, Cell.num 8, Cell.num 1, Cell.strList ["B"]]]⟩

/-- Boundary frame: a 2000-2005 row with rate 1 and site A, plus a
1999-2006 row with rate 0 and no sites to widen the bin range. -/
def T5 : Frame :=
  ⟨["lo", "hi", "d", "s"],
   [[Cell.num 2000, Cell.num 2005, Cell.num 1, Cell.strList ["A"]],
    [Cell.num 1999, Cell.num 2006, Cell.num 0, Cell.strList []]]⟩

/-- The worked distinct-site example of the spec: `{sites:[A,B], 1990-1995}`
and `{sites:[B,C], 1993-1998}`. -/
def TEx : Frame :=
  ⟨["lo", "hi", "s"],
   [[Cell.num 1990, Cell.num 1995, Cell.strList ["A", "B"]],
    [Cell.num 1993, Cell.num 1998, Cell.strList ["B", "C"]]]⟩

/-- Frame with one full row (1-4) and one row with a null upper date whose
lower date 0 still widens the bin range. -/
def T6 : Frame :=
  ⟨["lo", "hi", "d", "s"],
   [[Cell.num 1, Cell.num 4, Cell.num 2, Cell.strList ["A"]],
    [Cell.num 0, Cell.null, Cell.num 5, Cell.strList ["B"]]]⟩

/-- Frame with a degenerate interval: `lower_date = upper_date = 5`. -/
def T7 : Frame :=
  ⟨["q", "lo", "hi"], [[Cell.num 3, Cell.num 5, Cell.num 5]]⟩

/-- Frame for the derived-column computation: `6 / (4 - 1) = 2`. -/
def T9 : Frame :=
  ⟨["q", "lo", "hi"], [[Cell.num 6, Cell.num 1, Cell.num 4]]⟩

/-- Frame with a partial second row, for the bin-map safety witness. -/
def T10 : Frame :=
  ⟨["lo", "hi", "d"],
   [[Cell.num 0, Cell.num 3, Cell.num 1],
    [Cell.num 1, Cell.null, Cell.num 2]]⟩

/-- The summed-rate series of `T1` (years `-10..9`; the fractional row
`[-3/2, 1]` accumulates its rate 1 into bins `-1` and `0` only, because
`astype(int)` truncates `-3/2` to `-1`). -/
def S1 : Series :=
  ⟨[(-10, Cell.num 0), (-9, Cell.num 0), (-8, Cell.num 0), (-7, Cell.num 0),
    (-6, Cell.num 0), (-5, Cell.num 0), (-4, Cell.num 0), (-3, Cell.num 0),
    (-2, Cell.num 0), (-1, Cell.num 1), (0, Cell.num 1), (1, Cell.num 0),
    (2, Cell.num 0), (3, Cell.num 0), (4, Cell.num 0), (5, Cell.num 0),
    (6, Cell.num 0), (7, Cell.num 0), (8, Cell.num 0), (9, Cell.num 0)],
   "Frequency", "Year"⟩

/-- Claim C1, counterexample to the claim as stated: on `T1` the code's
summed-rate series has value 0 at year `-2`, while the claimed sum with the
`floor(lower) ≤ y < floor(upper)` test (`specRateSum floorOpenTestB`) is 1
there, because `floor(-3/2) = -2` but the code truncates `-3/2` to `-1`. -/
theorem C1_counterexample :
    valueAt? (year_freq_series T1 "lo" "hi" "d" "Frequency" "Year") (-2) = some (Cell.num 0) ∧
    specRateSum floorOpenTestB T1 0 1 2 (-2) = Cell.num 1 ∧
    Cell.num 0 ≠ Cell.num 1 := by
  refine ⟨by with_unfolding_all rfl, by with_unfolding_all rfl, by with_unfolding_all decide⟩

/-- Claim C1 (amended: Python `int()` truncation toward zero replaces
`floor`; the two agree for non-negative dates): whenever `year_freq_series`
returns a series, its value at every year of the index is the sum, over the
rows with non-null lower and upper dates passing the truncating half-open
test `int(lower) ≤ y < int(upper)`, of the rate column's value; rows
failing the test contribute nothing. -/
theorem C1_trunc_rate_sum {t : Frame} {lower upper dens name index_name : String}
    {li ui di : Nat} {p : Frame × Series}
    (hli : t.colIdx? lower = some li) (hui : t.colIdx? upper = some ui)
    (hdi : t.colIdx? dens = some di)
    (h : year_freq_series t lower upper dens name index_name = some p) :
    ∀ (y : Int) (v : Cell), (y, v) ∈ p.2.entries →
      v = specRateSum truncOpenTestB t li ui di y :=
  fun y v hm => (year_freq_series_char hli hui hdi h).2.2 y v hm

/-- Witness for C1 on the concrete frame `T1` at year `-2`. -/
theorem C1_witness : Cell.num 0 = specRateSum truncOpenTestB T1 0 1 2 (-2) :=
  @C1_trunc_rate_sum T1 "lo" "hi" "d" "Frequency" "Year" 0 1 2 (T1, S1)
    (by with_unfolding_all rfl) (by with_unfolding_all rfl) (by with_unfolding_all rfl)
    (by with_unfolding_all rfl) (-2) (Cell.num 0) (by with_unfolding_all decide)

/-- Claim C2, counterexample to the claim as stated: on `T2` the code's
site-count series has value 0 at year `-2` (the fractional row's dates
truncate to `[-1, 2]`, so it does not cover `-2`), while the claimed count
with the `floor(lower) ≤ y ≤ floor(upper)` test is 1 (site `A`). -/
theorem C2_counterexample :
    valueAt? (year_site_count_series T2 "lo" "hi" "s" "Site count" "Year") (-2)
      = some (Cell.num 0) ∧
    specSiteCount floorInclTestB T2 0 1 2 (-2) = 1 ∧
    Cell.num 0 ≠ Cell.num 1 := by
  refine ⟨by with_unfolding_all rfl, by with_unfolding_all rfl, by with_unfolding_all decide⟩

/-- The site-count series of the spec's worked example `TEx`. -/
def SEx : Series :=
  ⟨[(1990, Cell.num 2), (1991, Cell.num 2), (1992, Cell.num 2), (1993, Cell.num 3),
    (1994, Cell.num 3), (1995, Cell.num 3), (1996, Cell.num 2), (1997, Cell.num 2)],
   "Site count", "Year"⟩

/-- Claim C2 (amended: Python `int()` truncation toward zero replaces
`floor`; the two agree for non-negative dates, in particular in the worked
example): whenever `year_site_count_series` returns a series, its value at
every year of the index is the number of distinct site identifiers in the
flattened site lists of the rows with non-null dates passing the truncating
inclusive-inclusive test, years matched by no row having value 0; and on
the worked example year 1994 counts 3, year 1991 counts 2 and year 1996
counts 2. -/
theorem C2_distinct_site_count :
    (∀ (t : Frame) (lower upper site name index_name : String) (li ui si : Nat)
        (p : Frame × Series),
      t.colIdx? lower = some li → t.colIdx? upper = some ui → t.colIdx? site = some si →
      year_site_count_series t lower upper site name index_name = some p →
      ∀ (y : Int) (v : Cell), (y, v) ∈ p.2.entries →
        v = Cell.num (specSiteCount truncInclTestB t li ui si y)) ∧
    valueAt? (year_site_count_series TEx "lo" "hi" "s" "Site count" "Year") 1994
      = some (Cell.num 3) ∧
    valueAt? (year_site_count_series TEx "lo" "hi" "s" "Site count" "Year") 1991
      = some (Cell.num 2) ∧
    valueAt? (year_site_count_series TEx "lo" "hi" "s" "Site count" "Year") 1996
      = some (Cell.num 2) := by
  refine ⟨?_, by with_unfolding_all rfl, by with_unfolding_all rfl, by with_unfolding_all rfl⟩
  intro t lower upper site name index_name li ui si p hli hui hsi h y v hm
  exact (year_site_count_series_char hli hui hsi h).2.2 y v hm

/-- Witness for C2 on the worked example `TEx` at year 1994. -/
theorem C2_witness : Cell.num 3 = Cell.num (specSiteCount truncInclTestB TEx 0 1 2 1994) :=
  C2_distinct_site_count.1 TEx "lo" "hi" "s" "Site count" "Year" 0 1 2 (TEx, SEx)
    (by with_unfolding_all rfl) (by with_unfolding_all rfl) (by with_unfolding_all rfl)
    (by with_unfolding_all rfl) 1994 (Cell.num 3) (by with_unfolding_all decide)

/-- Claim C3, counterexample to the claim as stated: on `T3` the code's
type-count series has value 1 at year `-2` (only the wide row is counted;
the fractional row's dates truncate to `[-1, 2]`), while the claimed row
count with the `floor(lower) ≤ y ≤ floor(upper)` test is 2. -/
theorem C3_counterexample :
    valueAt? (year_type_count_series T3 "lo" "hi" "Site count" "Year") (-2)
      = some (Cell.num 1) ∧
    specTypeCount floorInclTestB T3 0 1 (-2) = 2 ∧
    Cell.num 1 ≠ Cell.num 2 := by
  refine ⟨by with_unfolding_all rfl, by with_unfolding_all rfl, by with_unfolding_all decide⟩

/-- Claim C3 (amended: Python `int()` truncation toward zero replaces
`floor`): whenever `year_type_count_series` returns a series, its value at
every year of the index is the raw number of rows (no deduplication) with
non-null dates passing the truncating inclusive-inclusive test. -/
theorem C3_type_row_count {t : Frame} {lower upper name index_name : String}
    {li ui : Nat} {p : Frame × Series}
    (hli : t.colIdx? lower = some li) (hui : t.colIdx? upper = some ui)
    (h : year_type_count_series t lower upper name index_name = some p) :
    ∀ (y : Int) (v : Cell), (y, v) ∈ p.2.entries →
      v = Cell.num ((specTypeCount truncInclTestB t li ui y : ℚ)) :=
  fun y v hm => (year_type_count_series_char hli hui h).2.2 y v hm

/-- The type-count series of `T3`. -/
def S3 : Series :=
  ⟨[(-10, Cell.num 1), (-9, Cell.num 1), (-8, Cell.num 1), (-7, Cell.num 1),
    (-6, Cell.num 1), (-5, Cell.num 1), (-4, Cell.num 1), (-3, Cell.num 1),
    (-2, Cell.num 1), (-1, Cell.num 2), (0, Cell.num 2), (1, Cell.num 2),
    (2, Cell.num 2), (3, Cell.num 1), (4, Cell.num 1), (5, Cell.num 1),
    (6, Cell.num 1), (7, Cell.num 1), (8, Cell.num 1), (9, Cell.num 1)],
   "Site count", "Year"⟩

/-- Witness for C3 on the concrete frame `T3` at year `-2`. -/
theorem C3_witness : Cell.num 1 = Cell.num ((specTypeCount truncInclTestB T3 0 1 (-2) : ℚ)) :=
  @C3_type_row_count T3 "lo" "hi" "Site count" "Year" 0 1 (T3, S3)
    (by with_unfolding_all rfl) (by with_unfolding_all rfl) (by with_unfolding_all rfl)
    (-2) (Cell.num 1) (by with_unfolding_all decide)

/-- Claim C4, counterexample to the claim as stated: on `T4a` (minimum
lower date `-3/2`) the index starts at `-1`, not at `floor(-3/2) = -2`; and
on `T4b` (two partial rows with `min lower = 10`, `max upper = 0`) the
series is empty, so its length 0 differs from
`floor(max upper) - floor(min lower) = -10`. -/
theorem C4_counterexample :
    seriesIndex? (year_freq_series T4a "lo" "hi" "d" "Frequency" "Year")
      = some [-1, 0, 1] ∧
    minNum? (T4a.colCells 0) = some (-3/2) ∧ maxNum? (T4a.colCells 1) = some 2 ∧
    intRange ⌊(-3/2 : ℚ)⌋ ⌊(2 : ℚ)⌋ = [-2, -1, 0, 1] ∧
    some [(-1 : Int), 0, 1] ≠ some [(-2 : Int), -1, 0, 1] ∧
    seriesIndex? (year_freq_series T4b "lo" "hi" "d" "Frequency" "Year") = some [] ∧
    minNum? (T4b.colCells 0) = some 10 ∧ maxNum? (T4b.colCells 1) = some 0 ∧
    (([] : List Int).length : Int) ≠ ⌊(0 : ℚ)⌋ - ⌊(10 : ℚ)⌋ := by
  refine ⟨by with_unfolding_all rfl, by with_unfolding_all rfl, by with_unfolding_all rfl,
    by with_unfolding_all rfl, by with_unfolding_all decide, by with_unfolding_all rfl,
    by with_unfolding_all rfl, by with_unfolding_all rfl, by with_unfolding_all decide⟩

/-- Claim C4 (amended: Python `int()` truncation toward zero replaces
`floor`, and the length is the truncated-at-zero difference
`(int(max) - int(min)).toNat`, the range being empty when
`int(max) ≤ int(min)`): whenever an aggregator returns a series, the index
is exactly the consecutive integers from `int(min lower)` up to but
excluding `int(max upper)`, the minimum and maximum being taken over the
full column before null rows are dropped, so a row with one null date
still contributes its other date to the span. -/
theorem C4_year_range :
    (∀ (t : Frame) (lower upper dens name index_name : String) (li ui di : Nat)
        (p : Frame × Series) (m mx : ℚ),
      t.colIdx? lower = some li → t.colIdx? upper = some ui → t.colIdx? dens = some di →
      year_freq_series t lower upper dens name index_name = some p →
      minNum? (t.colCells li) = some m → maxNum? (t.colCells ui) = some mx →
      p.2.entries.map Prod.fst = intRange (pyTrunc m) (pyTrunc mx) ∧
      p.2.entries.length = (pyTrunc mx - pyTrunc m).toNat) ∧
    (∀ (t : Frame) (lower upper site name index_name : String) (li ui si : Nat)
        (p : Frame × Series) (m mx : ℚ),
      t.colIdx? lower = some li → t.colIdx? upper = some ui → t.colIdx? site = some si →
      year_site_count_series t lower upper site name index_name = some p →
      minNum? (t.colCells li) = some m → maxNum? (t.colCells ui) = some mx →
      p.2.entries.map Prod.fst = intRange (pyTrunc m) (pyTrunc mx) ∧
      p.2.entries.length = (pyTrunc mx - pyTrunc m).toNat) ∧
    (∀ (t : Frame) (lower upper name index_name : String) (li ui : Nat)
        (p : Frame × Series) (m mx : ℚ),
      t.colIdx? lower = some li → t.colIdx? upper = some ui →
      year_type_count_series t lower upper name index_name = some p →
      minNum? (t.colCells li) = some m → maxNum? (t.colCells ui) = some mx →
      p.2.entries.map Prod.fst = intRange (pyTrunc m) (pyTrunc mx) ∧
      p.2.entries.length = (pyTrunc mx - pyTrunc m).toNat) := by
  refine ⟨?_, ?_, ?_⟩
  · intro t lower upper dens name index_name li ui di p m mx hli hui hdi h hm hmx
    obtain ⟨m2, mx2, hm2, hmx2, hk⟩ := (year_freq_series_char hli hui hdi h).2.1
    rw [hm2] at hm
    rw [hmx2] at hmx
    rw [Option.some.inj hm, Option.some.inj hmx] at hk
    refine ⟨hk, ?_⟩
    have := congrArg List.length hk
    rw [List.length_map, length_intRange] at this
    exact this
  · intro t lower upper site name index_name li ui si p m mx hli hui hsi h hm hmx
    obtain ⟨m2, mx2, hm2, hmx2, hk⟩ := (year_site_count_series_char hli hui hsi h).2.1
    rw [hm2] at hm
    rw [hmx2] at hmx
    rw [Option.some.inj hm, Option.some.inj hmx] at hk
    refine ⟨hk, ?_⟩
    have := congrArg List.length hk
    rw [List.length_map, length_intRange] at this
    exact this
  · intro t lower upper name index_name li ui p m mx hli hui h hm hmx
    obtain ⟨m2, mx2, hm2, hmx2, hk⟩ := (year_type_count_series_char hli hui h).2.1
    rw [hm2] at hm
    rw [hmx2] at hmx
    rw [Option.some.inj hm, Option.some.inj hmx] at hk
    refine ⟨hk, ?_⟩
    have := congrArg List.length hk
    rw [List.length_map, length_intRange] at this
    exact this

/-- The summed-rate series of `TW4`: its span `[5, 9)` comes from two
partial rows (lower 5 with null upper; null lower with upper 9). -/
def SW4 : Series :=
  ⟨[(5, Cell.num 0), (6, Cell.num 1), (7, Cell.num 1), (8, Cell.num 0)],
   "Frequency", "Year"⟩

/-- Witness for C4 on the concrete frame `TW4`, whose year span is
determined by two partial rows. -/
theorem C4_witness :
    SW4.entries.map Prod.fst = intRange (pyTrunc (5 : ℚ)) (pyTrunc (9 : ℚ)) ∧
    SW4.entries.length = (pyTrunc (9 : ℚ) - pyTrunc (5 : ℚ)).toNat :=
  C4_year_range.1 TW4 "lo" "hi" "d" "Frequency" "Year" 0 1 2 (TW4, SW4) 5 9
    (by with_unfolding_all rfl) (by with_unfolding_all rfl) (by with_unfolding_all rfl)
    (by with_unfolding_all rfl) (by with_unfolding_all rfl) (by with_unfolding_all rfl)

/-- The summed-rate series of `T5`: the 2000-2005 rate-1 row contributes
to bins 2000..2004 only. -/
def S5F : Series :=
  ⟨[(1999, Cell.num 0), (2000, Cell.num 1), (2001, Cell.num 1), (2002, Cell.num 1),
    (2003, Cell.num 1), (2004, Cell.num 1), (2005, Cell.num 0)],
   "Frequency", "Year"⟩

/-- The site-count series of `T5`: the 2000-2005 row's site `A` is counted
at 2000..2005 inclusive. -/
def S5S : Series :=
  ⟨[(1999, Cell.num 0), (2000, Cell.num 1), (2001, Cell.num 1), (2002, Cell.num 1),
    (2003, Cell.num 1), (2004, Cell.num 1), (2005, Cell.num 1)],
   "Site count", "Year"⟩

/-- The type-count series of `T5`: the 2000-2005 row is counted at
2000..2005 inclusive, on top of the always-matching second row. -/
def S5T : Series :=
  ⟨[(1999, Cell.num 1), (2000, Cell.num 2), (2001, Cell.num 2), (2002, Cell.num 2),
    (2003, Cell.num 2), (2004, Cell.num 2), (2005, Cell.num 2)],
   "Site count", "Year"⟩

/-- The three series of `T5` with its first row removed: rate 0, no sites,
one matching row everywhere. -/
def S5F0 : Series :=
  ⟨[(1999, Cell.num 0), (2000, Cell.num 0), (2001, Cell.num 0), (2002, Cell.num 0),
    (2003, Cell.num 0), (2004, Cell.num 0), (2005, Cell.num 0)],
   "Frequency", "Year"⟩

/-- Site-count series of `T5` without its first row. -/
def S5S0 : Series :=
  ⟨[(1999, Cell.num 0), (2000, Cell.num 0), (2001, Cell.num 0), (2002, Cell.num 0),
    (2003, Cell.num 0), (2004, Cell.num 0), (2005, Cell.num 0)],
   "Site count", "Year"⟩

/-- Type-count series of `T5` without its first row. -/
def S5T0 : Series :=
  ⟨[(1999, Cell.num 1), (2000, Cell.num 1), (2001, Cell.num 1), (2002, Cell.num 1),
    (2003, Cell.num 1), (2004, Cell.num 1), (2005, Cell.num 1)],
   "Site count", "Year"⟩

/-- Claim C5: on the table `T5`, whose first row has `lower_date = 2000`
and `upper_date = 2005` (rate 1, site `A`; a second row 1999-2006 with rate
0 and no sites widens the bin range), that row contributes its rate to
exactly the years 2000..2004 in the summed-rate series (half-open test) and
is counted at exactly the years 2000..2005 in the site-count and type-count
series (inclusive test): removing the row (`T5.eraseRow 0`) drops the value
by its rate at 2000..2004 in the summed-rate series, by one site at
2000..2005 in the site-count series and by one row at 2000..2005 in the
type-count series, and changes nothing at 1999. -/
theorem C5_boundary :
    year_freq_series T5 "lo" "hi" "d" "Frequency" "Year" = some (T5, S5F) ∧
    year_site_count_series T5 "lo" "hi" "s" "Site count" "Year" = some (T5, S5S) ∧
    year_type_count_series T5 "lo" "hi" "Site count" "Year" = some (T5, S5T) ∧
    year_freq_series (T5.eraseRow 0) "lo" "hi" "d" "Frequency" "Year"
      = some (T5.eraseRow 0, S5F0) ∧
    year_site_count_series (T5.eraseRow 0) "lo" "hi" "s" "Site count" "Year"
      = some (T5.eraseRow 0, S5S0) ∧
    year_type_count_series (T5.eraseRow 0) "lo" "hi" "Site count" "Year"
      = some (T5.eraseRow 0, S5T0) := by
  refine ⟨by with_unfolding_all rfl, by with_unfolding_all rfl, by with_unfolding_all rfl,
    by with_unfolding_all rfl, by with_unfolding_all rfl, by with_unfolding_all rfl⟩

/-- Claim C6: a row with a null lower or upper date contributes nothing to
the accumulated value of any year in any of the three aggregators — at
every year common to the indexes of the series of `t` and of `t` with the
null row removed, the values coincide — while the input table itself is
returned unchanged by every aggregator (`p.1 = t`), keeping its full row
count. -/
theorem C6_null_row_excluded :
    ∀ (t : Frame) (lower upper dens site name index_name : String)
      (li ui di si k : Nat) (r : Row),
      t.colIdx? lower = some li → t.colIdx? upper = some ui →
      t.colIdx? dens = some di → t.colIdx? site = some si →
      t.rows[k]? = some r →
      (r.getD li Cell.null = Cell.null ∨ r.getD ui Cell.null = Cell.null) →
      (∀ p q, year_freq_series t lower upper dens name index_name = some p →
        year_freq_series (t.eraseRow k) lower upper dens name index_name = some q →
        p.1 = t ∧ q.1 = t.eraseRow k ∧
        ∀ (y : Int) (v w : Cell), (y, v) ∈ p.2.entries → (y, w) ∈ q.2.entries → v = w) ∧
      (∀ p q, year_site_count_series t lower upper site name index_name = some p →
        year_site_count_series (t.eraseRow k) lower upper site name index_name = some q →
        p.1 = t ∧ q.1 = t.eraseRow k ∧
        ∀ (y : Int) (v w : Cell), (y, v) ∈ p.2.entries → (y, w) ∈ q.2.entries → v = w) ∧
      (∀ p q, year_type_count_series t lower upper name index_name = some p →
        year_type_count_series (t.eraseRow k) lower upper name index_name = some q →
        p.1 = t ∧ q.1 = t.eraseRow k ∧
        ∀ (y : Int) (v w : Cell), (y, v) ∈ p.2.entries → (y, w) ∈ q.2.entries → v = w) := by
  intro t lower upper dens site name index_name li ui di si k r hli hui hdi hsi hk hnull
  have hvalid : rowValidB r li ui = false := by
    unfold rowValidB
    rcases hnull with h | h
    · rw [h]
      simp [cellIsNull]
    · rw [h]
      simp [cellIsNull]
  refine ⟨?_, ?_, ?_⟩
  · intro p q hp hq
    obtain ⟨hp1, _, hval⟩ := year_freq_series_char hli hui hdi hp
    obtain ⟨hq1, _, hwal⟩ := year_freq_series_char
      (t := t.eraseRow k) hli hui hdi hq
    refine ⟨hp1, hq1, ?_⟩
    intro y v w hv hw
    rw [hval y v hv, hwal y w hw]
    exact (specRateSum_eraseRow truncOpenTestB li ui di hk hvalid y).symm
  · intro p q hp hq
    obtain ⟨hp1, _, hval⟩ := year_site_count_series_char hli hui hsi hp
    obtain ⟨hq1, _, hwal⟩ := year_site_count_series_char
      (t := t.eraseRow k) hli hui hsi hq
    refine ⟨hp1, hq1, ?_⟩
    intro y v w hv hw
    rw [hval y v hv, hwal y w hw]
    exact congrArg (fun n : Nat => Cell.num ((n : ℚ)))
      (specSiteCount_eraseRow truncInclTestB li ui si hk hvalid y).symm
  · intro p q hp hq
    obtain ⟨hp1, _, hval⟩ := year_type_count_series_char hli hui hp
    obtain ⟨hq1, _, hwal⟩ := year_type_count_series_char
      (t := t.eraseRow k) hli hui hq
    refine ⟨hp1, hq1, ?_⟩
    intro y v w hv hw
    rw [hval y v hv, hwal y w hw]
    exact congrArg (fun n : Nat => Cell.num ((n : ℚ)))
      (specTypeCount_eraseRow truncInclTestB li ui hk hvalid y).symm

/-- The summed-rate series of `T6` (the null-upper row widens the span to
start at 0 but adds no rate anywhere). -/
def S6F : Series :=
  ⟨[(0, Cell.num 0), (1, Cell.num 2), (2, Cell.num 2), (3, Cell.num 2)],
   "Frequency", "Year"⟩

/-- The summed-rate series of `T6` with its null-upper row removed. -/
def S6Fe : Series :=
  ⟨[(1, Cell.num 2), (2, Cell.num 2), (3, Cell.num 2)], "Frequency", "Year"⟩

/-- Witness for C6 on the concrete frame `T6`, whose second row has a null
upper date, compared at year 1. -/
theorem C6_witness : (T6, S6F).1 = T6 ∧ Cell.num 2 = Cell.num 2 := by
  have h := (C6_null_row_excluded T6 "lo" "hi" "d" "s" "Frequency" "Year" 0 1 2 3 1
    [Cell.num 0, Cell.null, Cell.num 5, Cell.strList ["B"]]
    (by with_unfolding_all rfl) (by with_unfolding_all rfl) (by with_unfolding_all rfl)
    (by with_unfolding_all rfl) (by with_unfolding_all rfl)
    (Or.inr (by with_unfolding_all rfl))).1
    (T6, S6F) (T6.eraseRow 1, S6Fe) (by with_unfolding_all rfl) (by with_unfolding_all rfl)
  exact ⟨h.1, h.2.2 1 (Cell.num 2) (Cell.num 2)
    (by with_unfolding_all decide) (by with_unfolding_all decide)⟩

/-- Claim C7: on every table with a row whose lower and upper dates are
equal numbers (and a numeric quantity), the derived-column calculator does
not raise and does not drop the row — it returns a frame with the same row
count in which that row's output-column value is the non-finite fault value
produced by the division by the zero interval length. -/
theorem C7_degenerate_interval :
    ∀ (t : Frame) (td lo up out : String) (di ui li k : Nat) (r : Row) (q a : ℚ),
      t.colIdx? td = some di → t.colIdx? up = some ui → t.colIdx? lo = some li →
      rowsRectB t = true →
      t.rows[k]? = some r →
      r.getD di Cell.null = Cell.num q →
      r.getD li Cell.null = Cell.num a →
      r.getD ui Cell.null = Cell.num a →
      (okFrame? (dens_per_year t td lo up out)).map (fun t2 => t2.rows.length)
        = some t.rows.length ∧
      (okFrame? (dens_per_year t td lo up out)).bind
        (fun t2 => (t2.column? out).bind (fun col => col[k]?)) = some Cell.fault := by
  intro t td lo up out di ui li k r q a hdi hui hli hrect hk hq ha hb
  rw [dens_per_year_ok out hdi hui hli]
  obtain ⟨hlen, _, hout⟩ := setCol_char out
    (fun r => cellDiv (r.getD di Cell.null)
      (cellSub (r.getD ui Cell.null) (r.getD li Cell.null))) hrect
  constructor
  · exact congrArg some hlen
  · have hcell : (t.rows.map (fun r => cellDiv (r.getD di Cell.null)
        (cellSub (r.getD ui Cell.null) (r.getD li Cell.null))))[k]? = some Cell.fault := by
      rw [List.getElem?_map, hk]
      show some (cellDiv (r.getD di Cell.null)
        (cellSub (r.getD ui Cell.null) (r.getD li Cell.null))) = some Cell.fault
      apply congrArg
      rw [hq, ha, hb]
      show cellDiv (Cell.num q) (Cell.num (a - a)) = Cell.fault
      rw [sub_self]
      show (if (0 : ℚ) = 0 then Cell.fault else Cell.num (q / 0)) = Cell.fault
      rw [if_pos rfl]
    have hgoal : ((setCol t out (t.rows.map (fun r => cellDiv (r.getD di Cell.null)
        (cellSub (r.getD ui Cell.null) (r.getD li Cell.null))))).column? out).bind
        (fun col => col[k]?) = some Cell.fault := by
      rw [hout]
      exact hcell
    exact hgoal

/-- Claim C8: whenever any of the three input column names is absent from
the table, the derived-column calculator fails immediately with the
missing-column error (the pandas KeyError) instead of returning a frame. -/
theorem C8_missing_column :
    ∀ (t : Frame) (td lo up out : String),
      (t.colIdx? td = none ∨ t.colIdx? lo = none ∨ t.colIdx? up = none) →
      dens_per_year t td lo up out = Except.error DfError.missingColumn := by
  intro t td lo up out h
  unfold dens_per_year
  rcases h1 : t.colIdx? td with _ | di
  · rfl
  rcases h2 : t.colIdx? up with _ | ui
  · rfl
  rcases h3 : t.colIdx? lo with _ | li
  · rfl
  · exfalso
    rcases h with h | h | h
    · rw [h] at h1; exact Option.noConfusion h1
    · rw [h] at h3; exact Option.noConfusion h3
    · rw [h] at h2; exact Option.noConfusion h2

/-- Witness for C8: `T7` has no column named `"xx"`. -/
theorem C8_witness :
    dens_per_year T7 "xx" "lo" "hi" "density_per_year"
      = Except.error DfError.missingColumn :=
  C8_missing_column T7 "xx" "lo" "hi" "density_per_year"
    (Or.inl (by with_unfolding_all rfl))

/-- Claim C9: the three yearly aggregators return the input table
unchanged next to their series (`p.1 = t`), and the derived-column
calculator is the only mutator — it sets exactly the named output column
to the computed rates and leaves the row count and every other column
(hence the row order) unchanged. -/
theorem C9_frame_effects :
    (∀ (t : Frame) (lower upper dens name index_name : String) (p : Frame × Series),
      year_freq_series t lower upper dens name index_name = some p → p.1 = t) ∧
    (∀ (t : Frame) (lower upper site name index_name : String) (p : Frame × Series),
      year_site_count_series t lower upper site name index_name = some p → p.1 = t) ∧
    (∀ (t : Frame) (lower upper name index_name : String) (p : Frame × Series),
      year_type_count_series t lower upper name index_name = some p → p.1 = t) ∧
    (∀ (t : Frame) (td lo up out : String) (di ui li : Nat),
      t.colIdx? td = some di → t.colIdx? up = some ui → t.colIdx? lo = some li →
      rowsRectB t = true →
      (okFrame? (dens_per_year t td lo up out)).map (fun t2 => t2.rows.length)
        = some t.rows.length ∧
      (∀ c, c ≠ out →
        (okFrame? (dens_per_year t td lo up out)).bind (fun t2 => t2.column? c)
          = t.column? c) ∧
      (okFrame? (dens_per_year t td lo up out)).bind (fun t2 => t2.column? out)
        = some (t.rows.map (fun r => cellDiv (r.getD di Cell.null)
            (cellSub (r.getD ui Cell.null) (r.getD li Cell.null))))) := by
  refine ⟨?_, ?_, ?_, ?_⟩
  · intro t lower upper dens name index_name p h
    unfold year_freq_series at h
    rcases Option.map_eq_some'.mp h with ⟨d, _, hp⟩
    rw [← hp]
  · intro t lower upper site name index_name p h
    unfold year_site_count_series at h
    rcases Option.map_eq_some'.mp h with ⟨d, _, hp⟩
    rw [← hp]
  · intro t lower upper name index_name p h
    unfold year_type_count_series at h
    rcases Option.map_eq_some'.mp h with ⟨d, _, hp⟩
    rw [← hp]
  · intro t td lo up out di ui li hdi hui hli hrect
    rw [dens_per_year_ok out hdi hui hli]
    obtain ⟨hlen, hother, hout⟩ := setCol_char out
      (fun r => cellDiv (r.getD di Cell.null)
        (cellSub (r.getD ui Cell.null) (r.getD li Cell.null))) hrect
    refine ⟨?_, ?_, ?_⟩
    · exact congrArg some hlen
    · intro c hc
      show (setCol t out _).column? c = t.column? c
      exact hother c hc
    · show (setCol t out _).column? out = some _
      exact hout

/-- Witness for C9 on the concrete frame `T9`: the rate column `"dpy"` is
appended with value `6 / (4 - 1) = 2` and the `"lo"` column is unchanged. -/
theorem C9_witness :
    (okFrame? (dens_per_year T9 "q" "lo" "hi" "dpy")).bind (fun t2 => t2.column? "dpy")
      = some [Cell.num 2] ∧
    (okFrame? (dens_per_year T9 "q" "lo" "hi" "dpy")).bind (fun t2 => t2.column? "lo")
      = T9.column? "lo" := by
  have h := C9_frame_effects.2.2.2 T9 "q" "lo" "hi" "dpy" 0 2 1
    (by with_unfolding_all rfl) (by with_unfolding_all rfl) (by with_unfolding_all rfl)
    (by with_unfolding_all rfl)
  exact ⟨h.2.2.trans (by with_unfolding_all rfl), h.2.1 "lo" (by with_unfolding_all decide)⟩

/-- Claim C10: when the bin map is successfully constructed (both date
columns have a numeric minimum and maximum) and the date columns are
well-formed, every accumulation step of the summed-rate loop hits a key
already present in the bin map — each surviving row's truncated year range
is contained in the dict's key range — so the missing-key (KeyError)
branch of the bin-map update is unreachable and the whole call returns a
series. -/
theorem C10_bin_keys_safe :
    ∀ (t : Frame) (lower upper dens name index_name : String) (li ui di : Nat) (m mx : ℚ),
      t.colIdx? lower = some li → t.colIdx? upper = some ui → t.colIdx? dens = some di →
      numColB t li = true → numColB t ui = true →
      minNum? (t.colCells li) = some m → maxNum? (t.colCells ui) = some mx →
      (∀ r ∈ (dropnaCol (dropnaCol t li) ui).rows, ∀ z : Int,
          truncOpenTestB r li ui z = true → z ∈ intRange (pyTrunc m) (pyTrunc mx)) ∧
      (year_freq_series t lower upper dens name index_name).isSome = true := by
  intro t lower upper dens name index_name li ui di m mx hli hui hdi hnli hnui hm hmx
  obtain ⟨hsub, p, hp⟩ := year_freq_series_success hli hui hdi hnli hnui hm hmx
  exact ⟨hsub, by rw [hp]; rfl⟩

/-- Witness for C10 on the concrete frame `T10` (one full row, one partial
row): the call succeeds. -/
theorem C10_witness :
    (year_freq_series T10 "lo" "hi" "d" "Frequency" "Year").isSome = true :=
  (C10_bin_keys_safe T10 "lo" "hi" "d" "Frequency" "Year" 0 1 2 0 3
    (by with_unfolding_all rfl) (by with_unfolding_all rfl) (by with_unfolding_all rfl)
    (by with_unfolding_all rfl) (by with_unfolding_all rfl)
    (by with_unfolding_all rfl) (by with_unfolding_all rfl)).2

/-- Witness for C7 on the concrete frame `T7`, whose single row has
`lower_date = upper_date = 5`. -/
theorem C7_witness :
    (okFrame? (dens_per_year T7 "q" "lo" "hi" "density_per_year")).map
      (fun t2 => t2.rows.length) = some T7.rows.length ∧
    (okFrame? (dens_per_year T7 "q" "lo" "hi" "density_per_year")).bind
      (fun t2 => (t2.column? "density_per_year").bind (fun col => col[0]?))
      = some Cell.fault :=
  C7_degenerate_interval T7 "q" "lo" "hi" "density_per_year" 0 2 1 0
    [Cell.num 3, Cell.num 5, Cell.num 5] 3 5
    (by with_unfolding_all rfl) (by with_unfolding_all rfl) (by with_unfolding_all rfl)
    (by with_unfolding_all rfl) (by with_unfolding_all rfl) (by with_unfolding_all rfl)
    (by with_unfolding_all rfl) (by with_unfolding_all rfl)
